import Mathlib

/-!
# roamer: value coercion of integers and the request-parsing orchestrator

A shallow embedding of `value/integer.go` (`SetInteger`) and `roamer.go`
(`Roamer.Parse`, `parseStruct`, `formatFieldValue`, `parseBody`).

Part 1 embeds `SetInteger` over a small model of `reflect.Value`.
Part 2 embeds the orchestrator with explicit state passing and an event trace.
-/

namespace Waddler

/-! ## Part 1: `value.SetInteger` -/

/-- The word size of the target platform: it fixes the width of `int`, `uint` and `uintptr`. -/
inductive Platform
  | p32
  | p64
  deriving DecidableEq, Repr

/-- Number of bits of `int`, `uint` and `uintptr` on the platform. -/
def Platform.intBits : Platform → Nat
  | .p32 => 32
  | .p64 => 64

/-- The enumeration `reflect.Kind`. -/
inductive Kind
  | Invalid | Bool
  | Int | Int8 | Int16 | Int32 | Int64
  | Uint | Uint8 | Uint16 | Uint32 | Uint64 | Uintptr
  | Float32 | Float64 | Complex64 | Complex128
  | Array | Chan | Func | Interface | Map | Pointer | Slice | String | Struct | UnsafePointer
  deriving DecidableEq, Repr

/-- The underlying types admitted by `constraints.Integer`. -/
inductive IntKind
  | int | int8 | int16 | int32 | int64
  | uint | uint8 | uint16 | uint32 | uint64 | uintptr
  deriving DecidableEq, Repr

/-- Whether the integer type is signed (`constraints.Signed`). -/
def IntKind.signed : IntKind → Bool
  | .int | .int8 | .int16 | .int32 | .int64 => true
  | _ => false

/-- Width in bits of an integer type. -/
def IntKind.bits (p : Platform) : IntKind → Nat
  | .int8 | .uint8 => 8
  | .int16 | .uint16 => 16
  | .int32 | .uint32 => 32
  | .int64 | .uint64 => 64
  | .int | .uint | .uintptr => p.intBits

/-- A value of a type `I` satisfying `constraints.Integer`: the underlying type, the method
names of `I` (empty for the predeclared types, possibly non-empty for a named type), and the
mathematical value. -/
structure Integer where
  typ : IntKind
  methods : List String
  val : Int
  deriving DecidableEq, Repr

/-- The value lies in the range of its type: every Go value of type `I` does. -/
def Integer.Valid (p : Platform) (n : Integer) : Prop :=
  if n.typ.signed then
    -(2 : Int) ^ (n.typ.bits p - 1) ≤ n.val ∧ n.val < (2 : Int) ^ (n.typ.bits p - 1)
  else
    0 ≤ n.val ∧ n.val < (2 : Int) ^ (n.typ.bits p)

instance (p : Platform) (n : Integer) : Decidable (n.Valid p) := by
  unfold Integer.Valid; exact inferInstance

/-- Conversion to a signed integer type of `w` bits: the two's-complement value of the low
`w` bits. -/
def wrapSigned (w : Nat) (x : Int) : Int :=
  (x + (2 : Int) ^ (w - 1)) % (2 : Int) ^ w - (2 : Int) ^ (w - 1)

/-- Conversion to an unsigned integer type of `w` bits: the low `w` bits. -/
def wrapUnsigned (w : Nat) (x : Int) : Int :=
  x % (2 : Int) ^ w

/-- The dynamic value an interface holds. -/
inductive Dyn
  | nil
  | integer (n : Integer)
  | other (code : Nat)
  deriving DecidableEq, Repr

/-- What a `reflect.Value` holds. Floating-point values are given by their exact value. -/
inductive Val
  | str (s : String)
  | bool (b : Bool)
  | int (i : Int)
  | uint (u : Int)
  | float (x : ℚ)
  | iface (d : Dyn)
  | other (code : Nat)
  deriving DecidableEq

/-- A `reflect.Value`, as far as `SetInteger` touches it: its kind, whether it is settable
(`CanSet`), the method names of its static type when that is an interface type (empty for
`any`), and the value it holds. -/
structure Value where
  kind : Kind
  canSet : Bool
  ifaceMethods : List String
  val : Val
  deriving DecidableEq

/-- The errors of the program: the sentinels of package `rerr`, `rerr.DecodeError`, errors
coming from the pluggable collaborators, and the wrappers of `github.com/pkg/errors`. -/
inductive Err
  | NilValue
  | NotPtr
  | NotSupported
  | FieldIndexOutOfBounds
  | DecodeError (inner : Err)
  | external (msg : String)
  | withMessage (cause : Err) (format : String) (args : List String)
  | withStack (cause : Err)
  deriving DecidableEq, Repr

/-- The call `errors.WithMessagef(err, format, args...)`. -/
def Err.WithMessagef (err : Err) (format : String) (args : List String) : Err :=
  .withMessage err format args

/-- The call `errors.WithStack(err)`. -/
def Err.WithStack (err : Err) : Err :=
  .withStack err

/-- The call `errors.Wrapf(err, format, args...)`: a message and a stack around `err`. -/
def Err.Wrapf (err : Err) (format : String) (args : List String) : Err :=
  .withStack (.withMessage err format args)

/-- The test `errors.Is(err, target)`: `target` is met along the `Unwrap` chain of the
`pkg/errors` wrappers. -/
def Err.Is : Err → Err → Bool
  | .withMessage c f a, t => (Err.withMessage c f a == t) || c.Is t
  | .withStack c, t => (Err.withStack c == t) || c.Is t
  | e, t => e == t

/-- How a call ends: it returns an `error` (`none` is `nil`) with the destination in some
state, or it panics. -/
inductive Outcome (σ : Type)
  | ret (err : Option Err) (s : σ)
  | panic
  deriving DecidableEq

/-- The method `reflect.Value.SetString`, on a value of kind String. -/
def Value.SetString (v : Value) (x : String) : Outcome Value :=
  if v.canSet then .ret none { v with val := .str x } else .panic

/-- The method `reflect.Value.SetBool`, on a value of kind Bool. -/
def Value.SetBool (v : Value) (x : Bool) : Outcome Value :=
  if v.canSet then .ret none { v with val := .bool x } else .panic

/-- Width of the signed kinds, `none` for every other kind. -/
def Kind.intBits (p : Platform) : Kind → Option Nat
  | .Int => some p.intBits
  | .Int8 => some 8
  | .Int16 => some 16
  | .Int32 => some 32
  | .Int64 => some 64
  | _ => none

/-- Width of the unsigned kinds, `none` for every other kind. -/
def Kind.uintBits (p : Platform) : Kind → Option Nat
  | .Uint => some p.intBits
  | .Uintptr => some p.intBits
  | .Uint8 => some 8
  | .Uint16 => some 16
  | .Uint32 => some 32
  | .Uint64 => some 64
  | _ => none

/-- The method `reflect.Value.SetInt(x int64)`: it stores `x` converted to the type of the
value (`int8(x)`, ..., `int(x)`) and panics on a kind that is no signed integer. -/
def Value.SetInt (p : Platform) (v : Value) (x : Int) : Outcome Value :=
  if v.canSet then
    match v.kind.intBits p with
    | some w => .ret none { v with val := .int (wrapSigned w x) }
    | none => .panic
  else .panic

/-- The method `reflect.Value.SetUint(x uint64)`: it stores `x` converted to the type of the
value and panics on a kind that is no unsigned integer. -/
def Value.SetUint (p : Platform) (v : Value) (x : Int) : Outcome Value :=
  if v.canSet then
    match v.kind.uintBits p with
    | some w => .ret none { v with val := .uint (wrapUnsigned w x) }
    | none => .panic
  else .panic

/-- Rounding of a natural number to a binary significand of `prec` bits, to nearest, ties to
even: the magnitude of the conversion of an integer to a floating-point type. -/
def roundToPrec (prec : Nat) (m : Nat) : Nat :=
  let len := if m = 0 then 0 else Nat.log2 m + 1
  if len ≤ prec then m
  else
    let sh := len - prec
    let q := m / 2 ^ sh
    let rest := m % 2 ^ sh
    let half := 2 ^ (sh - 1)
    let q1 := if half < rest ∨ (rest = half ∧ q % 2 = 1) then q + 1 else q
    q1 * 2 ^ sh

/-- Conversion of an integer to a floating-point type with a significand of `prec` bits. -/
def roundInt (prec : Nat) (x : Int) : Int :=
  if x < 0 then -((roundToPrec prec x.natAbs : Nat) : Int) else (roundToPrec prec x.natAbs : Nat)

/-- The conversion `float64(number)`. -/
def toFloat64 (x : Int) : Int :=
  roundInt 53 x

/-- The method `reflect.Value.SetFloat(x float64)` for an integral `x`: a Float32 value
stores `float32(x)`, a Float64 value stores `x`. -/
def Value.SetFloat (v : Value) (x : Int) : Outcome Value :=
  if v.canSet then
    match v.kind with
    | .Float32 => .ret none { v with val := .float (roundInt 24 x) }
    | .Float64 => .ret none { v with val := .float x }
    | _ => .panic
  else .panic

/-- The method `reflect.Value.Set(reflect.ValueOf(number))` on a value of kind Interface: the
number must be assignable to the interface type, that is implement its methods. -/
def Value.SetIface (v : Value) (number : Integer) : Outcome Value :=
  if v.canSet ∧ v.ifaceMethods ⊆ number.methods then
    .ret none { v with val := .iface (.integer number) }
  else .panic

/-- The function `strconv.Itoa`: decimal text, with a leading minus sign when negative. -/
def Itoa (i : Int) : String :=
  if i < 0 then "-" ++ Nat.repr i.natAbs else Nat.repr i.natAbs

/-- The function `value.SetInteger`. -/
def SetInteger (p : Platform) (field : Value) (number : Integer) : Outcome Value :=
  match field.kind with
  | .String => field.SetString (Itoa (wrapSigned p.intBits number.val))
  | .Bool => field.SetBool (decide (number.val > 0))
  | .Int8 | .Int16 | .Int32 | .Int64 | .Int => field.SetInt p (wrapSigned 64 number.val)
  | .Uint8 | .Uint16 | .Uint32 | .Uint64 | .Uint => field.SetUint p (wrapUnsigned 64 number.val)
  | .Float32 | .Float64 => field.SetFloat (toFloat64 number.val)
  | .Interface => field.SetIface number
  | _ => .ret (some .NotSupported) field

/-- The method `reflect.Value.Int`: the value of a signed integer kind. -/
def Value.readInt (p : Platform) (v : Value) : Option Int :=
  match v.kind.intBits p, v.val with
  | some _, .int i => some i
  | _, _ => none

/-- The method `reflect.Value.Uint`: the value of an unsigned integer kind. -/
def Value.readUint (p : Platform) (v : Value) : Option Int :=
  match v.kind.uintBits p, v.val with
  | some _, .uint u => some u
  | _, _ => none

/-! ## Part 2: the orchestrator `Roamer` -/

/-- The parts of `*http.Request` that the orchestrator reads (`Method`, `ContentLength`, the
header) and a payload standing for everything else, which only the collaborators read. -/
structure Request where
  Method : String
  ContentLength : Int
  Header : List (String × String)
  payload : String
  deriving DecidableEq, Repr

/-- The method `http.Header.Get`: the value stored under the key, `""` if there is none. -/
def Request.HeaderGet (req : Request) (key : String) : String :=
  match req.Header.lookup key with
  | some v => v
  | none => ""

/-- The search behind `strings.Cut` on lists of characters: the text before and after the
first occurrence of `sep`. -/
def cutChars (sep : List Char) : List Char → Option (List Char × List Char)
  | [] => if sep = [] then some ([], []) else none
  | c :: cs =>
    if sep.isPrefixOf (c :: cs) then some ([], (c :: cs).drop sep.length)
    else (cutChars sep cs).map (fun r => (c :: r.1, r.2))

/-- The function `strings.Cut`: `(before, after, found)`, and `(s, "", false)` when `sep` does
not occur in `s`. -/
def Cut (s sep : String) : String × String × Bool :=
  match cutChars sep.data s.data with
  | some (before, after) => (String.mk before, String.mk after, true)
  | none => (s, "", false)

/-- The type `reflect.StructField`, as far as the field walk reads it. -/
structure StructField where
  Name : String
  PkgPath : String
  Tag : String
  deriving DecidableEq, Repr

/-- The method `reflect.StructField.IsExported`. -/
def StructField.IsExported (f : StructField) : Bool :=
  f.PkgPath == ""

/-- One field of the destination struct: its descriptor and its current value. -/
structure Slot (V : Type) where
  typ : StructField
  value : V
  deriving DecidableEq, Repr

/-- What the destination pointer points to: a struct with its fields, or any other value. -/
inductive Pointee (V : Type)
  | struct (fields : List (Slot V))
  | value (v : V)
  deriving DecidableEq, Repr

/-- The memory behind the destination: `none` for a nil pointer. -/
abbrev Mem (V : Type) := Option (Pointee V)

/-- The type `parser.Cache`: the scratch map of one field walk. -/
abbrev Cache (R : Type) := List (String × R)

/-- The interface `Parser`: `Parse(req, tag, cache)` gives a raw value and whether one was
found, and may write to the cache. -/
structure Parser (R : Type) where
  Parse : Request → String → Cache R → R × Bool × Cache R

/-- The interface `Decoder`: `Decode(req, ptr)` decodes the body in place or fails.
`experimental` is the decoder after `EnableExperimentalFastStructFieldParser`, for a decoder
that implements `rexp.Experiment`. -/
structure Decoder (V : Type) where
  Decode : Request → Mem V → Option Err × Mem V
  experimental : Option (Request → Mem V → Option Err × Mem V)

/-- The interface `Formatter`: `Format(tag, ptr)` changes the value behind `ptr` in place or
fails. -/
structure Formatter (V : Type) where
  Format : String → V → Option Err × V

/-- The struct `Roamer`. The three registries are Go maps: the lists hold their entries. -/
structure Roamer (V R : Type) where
  parsers : List (String × Parser R)
  decoders : List (String × Decoder V)
  formatters : List (String × Formatter V)
  skipFilled : Bool
  hasParsers : Bool
  hasDecoders : Bool
  hasFormatters : Bool
  experimentalFastStructField : Bool

/-- What the orchestrator uses from outside `roamer.go`: `reflect`, package `value`, `fmt`,
`exp.FastStructField`, and the order in which the Go runtime ranges over a map (given the
index of the field being processed). -/
structure Env (V R : Type) where
  IsZero : V → Bool
  Set : V → R → Option Err × V
  Pointer : V → Bool
  Lookup : String → String → Bool
  FastStructField : List (Slot V) → Nat → Option StructField
  Sprint : R → String
  rangeParsers : Nat → List (String × Parser R) → List (String × Parser R)
  rangeFormatters : Nat → List (String × Formatter V) → List (String × Formatter V)

/-- The dynamic type of the `ptr any` argument of `Parse`, as far as `Parse` inspects it: how
`%T` prints it, `t.Kind()`, `t.Elem().Kind()` for a pointer type, and the method `AfterParse`
when the type implements `AfterParser`. -/
structure TypeInfo (V : Type) where
  name : String
  kind : Kind
  elem : Kind
  AfterParse : Option (Request → Mem V → Option Err × Mem V)

/-- The `ptr any` argument of `Parse`: the nil interface, or a value of some type together
with the memory behind it. -/
inductive Any (V : Type)
  | nil
  | val (t : TypeInfo V) (mem : Mem V)

/-- The calls the orchestrator makes to its collaborators, in the order it makes them. -/
inductive Event
  | decode (contentType : String)
  | parse (field : Nat) (tag : String)
  | set (field : Nat) (tag : String)
  | format (field : Nat) (key : String)
  | afterParse (req : Request)
  deriving DecidableEq, Repr

/-- How a call of the orchestrator ends: it returns an `error` (`none` is `nil`), or panics. -/
inductive Ret
  | returned (err : Option Err)
  | panicked
  deriving DecidableEq, Repr

/-- The result of `Parse`, `parseStruct` and `parseBody`: how the call ended, the memory
behind the destination afterwards, and the collaborator calls made. -/
structure Result (V : Type) where
  ret : Ret
  mem : Mem V
  trace : List Event
  deriving DecidableEq, Repr

/-- The initial value of the struct in `NewRoamer`, before the options run. -/
def Roamer.initial {V R : Type} : Roamer V R :=
  { parsers := [], decoders := [], formatters := [], skipFilled := true,
    hasParsers := false, hasDecoders := false, hasFormatters := false,
    experimentalFastStructField := false }

/-- The method `Roamer.enableExperimentalFeatures`. -/
def Roamer.enableExperimentalFeatures {V R : Type} (r : Roamer V R) : Roamer V R :=
  { r with decoders := r.decoders.map (fun kd =>
      match kd.2.experimental with
      | some d => (kd.1, { kd.2 with Decode := d })
      | none => kd) }

/-- The function `NewRoamer`. -/
def NewRoamer {V R : Type} (opts : List (Roamer V R → Roamer V R)) : Roamer V R :=
  let r := opts.foldl (fun r opt => opt r) Roamer.initial
  let r := { r with
    hasParsers := decide (r.parsers.length > 0)
    hasDecoders := decide (r.decoders.length > 0)
    hasFormatters := decide (r.formatters.length > 0) }
  if r.experimentalFastStructField then r.enableExperimentalFeatures else r

/-- The method `Roamer.parseBody`. -/
def parseBody {V R : Type} (r : Roamer V R) (req : Request) (typeName : String) (mem : Mem V) :
    Result V :=
  if !r.hasDecoders || req.ContentLength == 0 || req.Method == "GET" then
    { ret := .returned none, mem := mem, trace := [] }
  else
    let contentType := req.HeaderGet "Content-Type"
    let contentType :=
      match Cut contentType ";" with
      | (base, _, true) => base
      | (_, _, false) => contentType
    match r.decoders.lookup contentType with
    | none => { ret := .returned none, mem := mem, trace := [] }
    | some d =>
      match d.Decode req mem with
      | (some err, mem') =>
        { ret := .returned (some (Err.WithStack (Err.DecodeError
            (Err.WithMessagef err "decode `%s` request body for `%T`" [contentType, typeName])))),
          mem := mem', trace := [.decode contentType] }
      | (none, mem') => { ret := .returned none, mem := mem', trace := [.decode contentType] }

/-- Modelled from the spec: the method `Formatters.has`, which is not among the sources. A
formatter applies "only if the field's annotation contains a keyword matching a registered
formatter": some registered keyword is found in the tag. -/
def Formatters.has {V R : Type} (env : Env V R) (formatters : List (String × Formatter V))
    (tag : String) : Bool :=
  formatters.any (fun kf => env.Lookup tag kf.1)

/-- The loop `for _, f := range r.formatters` of `formatFieldValue`, over the entries in the
order of the range. -/
def formatLoop {V : Type} (i : Nat) (tag : String) :
    List (String × Formatter V) → V → Option Err × V × List Event
  | [], v => (none, v, [])
  | (key, f) :: rest, v =>
    match f.Format tag v with
    | (some err, v') => (some err, v', [.format i key])
    | (none, v') =>
      match formatLoop i tag rest v' with
      | (res, v'', trace) => (res, v'', .format i key :: trace)

/-- The method `Roamer.formatFieldValue`, for the field of index `i`. -/
def formatFieldValue {V R : Type} (r : Roamer V R) (env : Env V R) (i : Nat)
    (fieldType : StructField) (fieldValue : V) : Option Err × V × List Event :=
  if !Formatters.has env r.formatters fieldType.Tag then (none, fieldValue, [])
  else if !env.Pointer fieldValue then (none, fieldValue, [])
  else formatLoop i fieldType.Tag (env.rangeFormatters i r.formatters) fieldValue

/-- The loop `for tag, p := range r.parsers` of `parseStruct`, over the entries in the order
of the range: the first parser that finds a value has it set into the field, which ends the
loop. -/
def parseLoop {V R : Type} (env : Env V R) (req : Request) (typeName : String) (i : Nat)
    (fieldType : StructField) :
    List (String × Parser R) → V → Cache R → Option Err × V × Cache R × List Event
  | [], v, cache => (none, v, cache, [])
  | (tag, p) :: rest, v, cache =>
    match p.Parse req fieldType.Tag cache with
    | (_, false, cache') =>
      match parseLoop env req typeName i fieldType rest v cache' with
      | (res, v', cache'', trace) => (res, v', cache'', .parse i tag :: trace)
    | (parsedValue, true, cache') =>
      match env.Set v parsedValue with
      | (some err, v') =>
        (some (Err.Wrapf err "set `%s` value to field `%s` from tag `%s` for struct `%T`"
            [env.Sprint parsedValue, fieldType.Name, tag, typeName]),
          v', cache', [.parse i tag, .set i tag])
      | (none, v') => (none, v', cache', [.parse i tag, .set i tag])

/-- The state of the field walk: the fields of the struct, the parser cache, and the
collaborator calls made so far. -/
structure WalkState (V R : Type) where
  fields : List (Slot V)
  cache : Cache R
  trace : List Event

/-- How one iteration of the field walk ends: the loop goes on, or `parseStruct` ends. -/
inductive Step (V R : Type)
  | next (s : WalkState V R)
  | stop (ret : Ret) (s : WalkState V R)

/-- The descriptor of field `i` that the walk uses: `exp.FastStructField(&v, i)` on the
experimental path, `t.Field(i)` otherwise. -/
def fieldTypeAt {V R : Type} (r : Roamer V R) (env : Env V R) (fields : List (Slot V))
    (i : Nat) : Option StructField :=
  if r.experimentalFastStructField then env.FastStructField fields i
  else fields[i]?.map (fun slot => slot.typ)

/-- One iteration of the loop `for i := range fieldsAmount` of `parseStruct`. -/
def walkField {V R : Type} (r : Roamer V R) (env : Env V R) (req : Request)
    (typeName : String) (i : Nat) (s : WalkState V R) : Step V R :=
  match fieldTypeAt r env s.fields i with
  | none =>
    if r.experimentalFastStructField then
      .stop (.returned (some (Err.WithStack Err.FieldIndexOutOfBounds))) s
    else .stop .panicked s
  | some fieldType =>
    if !fieldType.IsExported || fieldType.Tag.length == 0 then .next s
    else
      match s.fields[i]? with
      | none => .stop .panicked s
      | some slot =>
        let fieldValue := slot.value
        if r.skipFilled && !env.IsZero fieldValue then
          if r.hasFormatters then
            match formatFieldValue r env i fieldType fieldValue with
            | (some err, v, trace) =>
              .stop (.returned (some (Err.WithMessagef err "format field `%s` in struct `%T`"
                  [fieldType.Name, typeName])))
                { s with fields := s.fields.set i { slot with value := v },
                         trace := s.trace ++ trace }
            | (none, v, trace) =>
              .next { s with fields := s.fields.set i { slot with value := v },
                             trace := s.trace ++ trace }
          else .next s
        else
          match parseLoop env req typeName i fieldType (env.rangeParsers i r.parsers)
              fieldValue s.cache with
          | (some err, v, cache, trace) =>
            .stop (.returned (some err))
              { fields := s.fields.set i { slot with value := v }, cache := cache,
                trace := s.trace ++ trace }
          | (none, v, cache, trace) =>
            let s1 : WalkState V R :=
              { fields := s.fields.set i { slot with value := v }, cache := cache,
                trace := s.trace ++ trace }
            if r.hasFormatters then
              match formatFieldValue r env i fieldType v with
              | (some err, v', trace') =>
                .stop (.returned (some (Err.WithMessagef err "format field `%s` in struct `%T`"
                    [fieldType.Name, typeName])))
                  { s1 with fields := s.fields.set i { slot with value := v' },
                            trace := s1.trace ++ trace' }
              | (none, v', trace') =>
                .next { s1 with fields := s.fields.set i { slot with value := v' },
                                trace := s1.trace ++ trace' }
            else .next s1

/-- The loop `for i := range fieldsAmount` of `parseStruct`: `n` iterations are left, the
next one is for field `i`. -/
def walkFields {V R : Type} (r : Roamer V R) (env : Env V R) (req : Request)
    (typeName : String) : Nat → Nat → WalkState V R → Ret × WalkState V R
  | 0, _, s => (.returned none, s)
  | n + 1, i, s =>
    match walkField r env req typeName i s with
    | .stop ret s' => (ret, s')
    | .next s' => walkFields r env req typeName n (i + 1) s'

/-- The method `Roamer.parseStruct`. On a nil pointer `reflect.Indirect` gives the zero
`reflect.Value`, on which `v.Type()` panics; `v.NumField()` panics on a value that is no
struct. -/
def parseStruct {V R : Type} (r : Roamer V R) (env : Env V R) (req : Request)
    (typeName : String) (mem : Mem V) : Result V :=
  let b := parseBody r req typeName mem
  match b.ret with
  | .returned none =>
    if !r.hasParsers then b
    else
      match b.mem with
      | none => { b with ret := .panicked }
      | some (.value _) => { b with ret := .panicked }
      | some (.struct fields) =>
        match walkFields r env req typeName fields.length 0
            { fields := fields, cache := [], trace := [] } with
        | (ret, s) => { ret := ret, mem := some (.struct s.fields), trace := b.trace ++ s.trace }
  | _ => b

/-- The end of `Parse`: the call of `AfterParse` when the destination implements
`AfterParser`. -/
def callAfterParse {V : Type} (t : TypeInfo V) (req : Request) (res : Result V) : Result V :=
  match t.AfterParse with
  | some hook =>
    match hook req res.mem with
    | (err, mem') => { ret := .returned err, mem := mem', trace := res.trace ++ [.afterParse req] }
  | none => { res with ret := .returned none }

/-- The method `Roamer.Parse`. -/
def Parse {V R : Type} (r : Roamer V R) (env : Env V R) (req : Request) (ptr : Any V) :
    Result V :=
  match ptr with
  | .nil => { ret := .returned (some (Err.Wrapf Err.NilValue "ptr" [])), mem := none, trace := [] }
  | .val t mem =>
    if t.kind != Kind.Pointer then
      { ret := .returned (some (Err.Wrapf Err.NotPtr "`%T`" [t.name])), mem := mem, trace := [] }
    else
      match t.elem with
      | .Struct =>
        let res := parseStruct r env req t.name mem
        if res.ret != .returned none then res else callAfterParse t req res
      | .Slice | .Array | .Map =>
        let res := parseBody r req t.name mem
        if res.ret != .returned none then res else callAfterParse t req res
      | _ =>
        { ret := .returned (some (Err.Wrapf Err.NotSupported "`%T`" [t.name])), mem := mem,
          trace := [] }

/-! ## A small configuration, for the witnesses -/

/-- An environment over natural numbers: zero is the zero value, `Set` stores the raw value,
every field has a pointer, a tag holds exactly its own text as keyword, maps are ranged over
in the order of their entries. -/
def sampleEnv : Env Nat Nat :=
  { IsZero := fun v => v == 0
    Set := fun _ raw => (none, raw)
    Pointer := fun _ => true
    Lookup := fun tag key => tag == key
    FastStructField := fun fields i => fields[i]?.map (fun slot => slot.typ)
    Sprint := fun raw => Nat.repr raw
    rangeParsers := fun _ entries => entries
    rangeFormatters := fun _ entries => entries }

/-- A parser that finds the value `42` for every field. -/
def sampleParser : Parser Nat :=
  { Parse := fun _ _ cache => (42, true, cache) }

/-- A formatter that adds one to the value. -/
def sampleFormatter : Formatter Nat :=
  { Format := fun _ v => (none, v + 1) }

/-- A decoder that always fails. -/
def sampleDecoder : Decoder Nat :=
  { Decode := fun _ mem => (some (Err.external "bad body"), mem), experimental := none }

/-- A roamer with one parser under `query`, one decoder for `application/json`, and one
formatter under `query`. -/
def sampleRoamer : Roamer Nat Nat :=
  NewRoamer [fun r => { r with
    parsers := [("query", sampleParser)]
    decoders := [("application/json", sampleDecoder)]
    formatters := [("query", sampleFormatter)] }]

/-- A POST request with a JSON body. -/
def sampleRequest : Request :=
  { Method := "POST", ContentLength := 2,
    Header := [("Content-Type", "application/json; charset=utf-8")], payload := "{}" }

/-- A hook that fails. -/
def sampleHook : Request → Mem Nat → Option Err × Mem Nat :=
  fun _ mem => (some (Err.external "hook"), mem)

/-- A destination type of the given kinds that implements `AfterParser`. -/
def sampleType (kind elem : Kind) : TypeInfo Nat :=
  { name := "*main.T", kind := kind, elem := elem, AfterParse := some sampleHook }

/-- The state in which an iteration of the field walk ends. -/
def Step.state {V R : Type} : Step V R → WalkState V R
  | .next s => s
  | .stop _ s => s

/-- Whether the event is a call of `AfterParse`. -/
def Event.isAfterParse : Event → Bool
  | .afterParse _ => true
  | _ => false

/-- Whether the event is a call of a decoder. -/
def Event.isDecode : Event → Bool
  | .decode _ => true
  | _ => false

/-- The field for which a parser, `value.Set` or a formatter is called. -/
def Event.fieldIndex : Event → Option Nat
  | .parse i _ => some i
  | .set i _ => some i
  | .format i _ => some i
  | _ => none

/-- Whether the event belongs to the extraction step: a parser call or a call of
`value.Set`. -/
def Event.isExtraction : Event → Bool
  | .parse _ _ => true
  | .set _ _ => true
  | _ => false

/-! ## Notions used to state the claims on body decoding -/

/-- The key under which `parseBody` looks the decoder up: the `Content-Type` header, cut at
the first `;` when there is one (lines 189 to 192 of `roamer.go`). -/
def contentTypeKey (req : Request) : String :=
  let contentType := req.HeaderGet "Content-Type"
  match Cut contentType ";" with
  | (base, _, true) => base
  | (_, _, false) => contentType

/-- The function `errors.Cause` of `github.com/pkg/errors`: the innermost error below the
wrappers that have a `Cause` method. -/
def Err.Cause : Err → Err
  | .withMessage c _ _ => c.Cause
  | .withStack c => c.Cause
  | e => e

/-- The test `errors.As(err, &rerr.DecodeError{})`: the first `rerr.DecodeError` along the
`Unwrap` chain of the `pkg/errors` wrappers, given by its field `Err`. -/
def Err.AsDecodeError : Err → Option Err
  | .DecodeError inner => some inner
  | .withMessage c _ _ => c.AsDecodeError
  | .withStack c => c.AsDecodeError
  | _ => none

/-- A decoder that succeeds and leaves the destination as it is. -/
def okDecoder : Decoder Nat :=
  { Decode := fun _ mem => (none, mem), experimental := none }

/-- A roamer whose only decoder is registered for `text/xml`. -/
def xmlRoamer : Roamer Nat Nat :=
  NewRoamer [fun r => { r with decoders := [("text/xml", okDecoder)] }]

/-- A destination type of the given kinds that does not implement `AfterParser`. -/
def plainType (kind elem : Kind) : TypeInfo Nat :=
  { name := "*main.T", kind := kind, elem := elem, AfterParse := none }

/-! ## `value.SetSliceString`, from the specification -/

/-- The function `strings.Join`: the elements with `sep` between them. -/
def Join : List String → String → String
  | [], _ => ""
  | [x], _ => x
  | x :: y :: rest, sep => x ++ sep ++ Join (y :: rest) sep

/-- The destination kinds that section 4.1 of the specification tells apart for a
collection-of-string source. -/
inductive SliceDestKind
  | string
  | collectionOfString
  | collectionOfAny
  | genericAny
  | other
  deriving DecidableEq, Repr

/-- What a destination of `SetSliceString` holds: a string, a collection of strings, a
collection of generic-any entries that each wrap a string, a generic-any holding a collection
of strings, or anything else. -/
inductive SliceVal
  | str (s : String)
  | strs (arr : List String)
  | anys (arr : List String)
  | anyOfStrs (arr : List String)
  | other (code : Nat)
  deriving DecidableEq, Repr

/-- A destination field of `SetSliceString`: its kind, whether it is settable, and what it
holds. -/
structure SliceDest where
  kind : SliceDestKind
  canSet : Bool
  val : SliceVal
  deriving DecidableEq, Repr

/-- Modelled from the spec: the function `value.SetSliceString`, which is not among the
sources (only its test `slice_test.go` is). Section 4.1: a destination that is not settable
fails with the not-supported error; a string destination gets the elements joined with a
comma; a collection-of-string destination is assigned directly; a collection-of-generic-any
destination gets the elements converted one by one; a generic-any destination is reassigned
if it already holds a collection of strings and fails otherwise; any other destination kind
fails with the unsupported-type error. -/
def SetSliceString (field : SliceDest) (arr : List String) : Option Err × SliceDest :=
  if !field.canSet then (some Err.NotSupported, field)
  else
    match field.kind with
    | .string => (none, { field with val := .str (Join arr ",") })
    | .collectionOfString => (none, { field with val := .strs arr })
    | .collectionOfAny => (none, { field with val := .anys arr })
    | .genericAny =>
      match field.val with
      | .anyOfStrs _ => (none, { field with val := .anyOfStrs arr })
      | _ => (some Err.NotSupported, field)
    | .other => (some Err.NotSupported, field)

/-! ## Configurations with several parsers and formatters -/

/-- A formatter that doubles the value. -/
def doubleFormatter : Formatter Nat :=
  { Format := fun _ v => (none, v * 2) }

/-- A roamer with two formatters, registered under `a` and then under `b`, and one parser
under `a`. -/
def twoFormatterRoamer : Roamer Nat Nat :=
  NewRoamer [fun r => { r with
    parsers := [("a", sampleParser)]
    formatters := [("a", sampleFormatter), ("b", doubleFormatter)] }]

/-- The sample environment on a run in which the Go runtime ranges over the maps in the
reverse order of their entries. -/
def reversedEnv : Env Nat Nat :=
  { sampleEnv with
    rangeParsers := fun _ entries => entries.reverse
    rangeFormatters := fun _ entries => entries.reverse }

/-- A parser that finds the given value for every field. -/
def constParser (value : Nat) : Parser Nat :=
  { Parse := fun _ _ cache => (value, true, cache) }

/-- A roamer with two parsers: the one registered first, under `first`, finds 1 for every
field and the one registered second, under `second`, finds 2. -/
def twoParserRoamer : Roamer Nat Nat :=
  NewRoamer [fun r => { r with
    parsers := [("first", constParser 1), ("second", constParser 2)] }]

/-- A roamer with one formatter, registered under `query`, and no parser. -/
def formatterOnlyRoamer : Roamer Nat Nat :=
  NewRoamer [fun r => { r with formatters := [("query", sampleFormatter)] }]

/-- The environment on a run in which the runtime ranges over the parser map and the
formatter map in the given orders; everything else is as in `env`. -/
def Env.withOrder {V R : Type} (env : Env V R)
    (rangeParsers : Nat → List (String × Parser R) → List (String × Parser R))
    (rangeFormatters : Nat → List (String × Formatter V) → List (String × Formatter V)) :
    Env V R :=
  { env with rangeParsers := rangeParsers, rangeFormatters := rangeFormatters }

/-- The result with which an iteration ends `parseStruct`, `none` if the loop goes on. -/
def Step.ret {V R : Type} : Step V R → Option Ret
  | .next _ => none
  | .stop ret _ => some ret

/-- Whether the parser of a registry entry reports a value for the tag, asked with an empty
cache. -/
def reportsValue {R : Type} (req : Request) (tag : String) (q : String × Parser R) : Bool :=
  (q.2.Parse req tag []).2.1

/-! ## Notions used to state how the formatters run in turn -/

/-- The value after the formatters of the entries have run in turn, from the value `v`. -/
def valueAfter {V : Type} (tag : String) : List (String × Formatter V) → V → V
  | [], v => v
  | (_, f) :: rest, v => valueAfter tag rest (f.Format tag v).2

/-- Whether each formatter of the entries, run in turn from the value `v`, returns no
error. -/
def formatsOk {V : Type} (tag : String) : List (String × Formatter V) → V → Bool
  | [], _ => true
  | (_, f) :: rest, v => (f.Format tag v).1.isNone && formatsOk tag rest (f.Format tag v).2

/-- A formatter that fails on the fields annotated `bad` and leaves the other fields as they
are. -/
def strictFormatter : Formatter Nat :=
  { Format := fun tag v => if tag == "bad" then (some (Err.external "bad format"), v)
                           else (none, v) }

/-- A roamer with the parser that finds 42 under `q` and three formatters: the one that adds
one under `q`, the one above under `bad`, and the one that doubles under `z`. -/
def strictFormatRoamer : Roamer Nat Nat :=
  NewRoamer [fun r => { r with
    parsers := [("q", sampleParser)]
    formatters := [("q", sampleFormatter), ("bad", strictFormatter), ("z", doubleFormatter)] }]

/-! ## Configurations used to state the independence of the map order -/

/-- A parser that never finds a value and leaves an entry in the cache. -/
def memoParser : Parser Nat :=
  { Parse := fun _ _ cache => (0, false, ("memo", 7) :: cache) }

/-- A parser that finds 7 when the cache holds an entry and finds nothing otherwise. -/
def cacheReader : Parser Nat :=
  { Parse := fun _ _ cache => (7, !cache.isEmpty, cache) }

/-- A roamer with the two parsers above, registered under `memo` and then under `reader`,
and no formatter. -/
def cacheRoamer : Roamer Nat Nat :=
  NewRoamer [fun r => { r with
    parsers := [("memo", memoParser), ("reader", cacheReader)] }]

/-- A parser that finds the given value for the fields annotated `key`, and nothing for the
other fields. -/
def keyParser (key : String) (value : Nat) : Parser Nat :=
  { Parse := fun _ tag cache => (value, tag == key, cache) }

/-- A formatter that adds two to the value. -/
def addTwoFormatter : Formatter Nat :=
  { Format := fun _ v => (none, v + 2) }

/-- A roamer with two parsers, of which one reports for the annotation `a` and the other for
the annotation `b`, and with two formatters that commute. -/
def commutingRoamer : Roamer Nat Nat :=
  NewRoamer [fun r => { r with
    parsers := [("a", keyParser "a" 10), ("b", keyParser "b" 20)]
    formatters := [("a", sampleFormatter), ("b", addTwoFormatter)] }]

/-- A struct with two exported zero-valued fields, annotated `a` and `b`. -/
def twoTagged : List (Slot Nat) :=
  [Slot.mk (StructField.mk "A" "" "a") 0, Slot.mk (StructField.mk "B" "" "b") 0]

/-! ## Arithmetic of the integer conversions -/

theorem two_pow_pred_double (w : Nat) (hw : 0 < w) :
    (2 : Int) ^ w = 2 * (2 : Int) ^ (w - 1) := by
  obtain ⟨k, rfl⟩ : ∃ k, w = k + 1 := ⟨w - 1, by omega⟩
  simp [pow_succ, mul_comm]

theorem wrapSigned_eq_self (w : Nat) (hw : 0 < w) (x : Int)
    (hlo : -(2 : Int) ^ (w - 1) ≤ x) (hhi : x < (2 : Int) ^ (w - 1)) :
    wrapSigned w x = x := by
  have hd := two_pow_pred_double w hw
  unfold wrapSigned
  rw [Int.emod_eq_of_lt (by omega) (by omega)]
  omega

theorem wrapUnsigned_eq_self (w : Nat) (x : Int) (hlo : 0 ≤ x) (hhi : x < (2 : Int) ^ w) :
    wrapUnsigned w x = x :=
  Int.emod_eq_of_lt hlo hhi

theorem intBits_bounds (p : Platform) (k : Kind) (w : Nat) (h : Kind.intBits p k = some w) :
    0 < w ∧ w ≤ 64 := by
  cases p <;> cases k <;> simp [Kind.intBits, Platform.intBits] at h <;> omega

theorem uintBits_bounds (p : Platform) (k : Kind) (w : Nat) (h : Kind.uintBits p k = some w) :
    0 < w ∧ w ≤ 64 := by
  cases p <;> cases k <;> simp [Kind.uintBits, Platform.intBits] at h <;> omega

/-! ## `SetInteger`: the claims -/

/-- The signed-integer rule of `SetInteger`, as an equation. -/
theorem SetInteger_signed_eq (p : Platform) (field : Value) (number : Integer) (w : Nat)
    (hset : field.canSet = true) (hk : Kind.intBits p field.kind = some w) :
    SetInteger p field number =
      Outcome.ret none { field with val := Val.int (wrapSigned w (wrapSigned 64 number.val)) } := by
  obtain ⟨k, c, ms, v⟩ := field
  simp only at hset hk
  subst hset
  cases k <;> simp [Kind.intBits] at hk <;>
    simp [SetInteger, Value.SetInt, Kind.intBits, hk]

/-- The unsigned-integer rule of `SetInteger`, as an equation. -/
theorem SetInteger_unsigned_eq (p : Platform) (field : Value) (number : Integer) (w : Nat)
    (hset : field.canSet = true) (hk : Kind.uintBits p field.kind = some w)
    (hne : field.kind ≠ Kind.Uintptr) :
    SetInteger p field number =
      Outcome.ret none
        { field with val := Val.uint (wrapUnsigned w (wrapUnsigned 64 number.val)) } := by
  obtain ⟨k, c, ms, v⟩ := field
  simp only at hset hk hne
  subst hset
  cases k <;> simp [Kind.uintBits] at hk hne <;>
    simp [SetInteger, Value.SetUint, Kind.uintBits, hk]

/-- C2, at the failing input: on a 64-bit platform the `uint64` number 18446744073709551615
(a valid value of its type, whose decimal text is "18446744073709551615") set into a settable
string field leaves the text "-1" there. -/
theorem C2_SetInteger_string_uint64_max :
    Integer.Valid Platform.p64 (Integer.mk IntKind.uint64 [] 18446744073709551615) ∧
    Itoa 18446744073709551615 = "18446744073709551615" ∧
    SetInteger Platform.p64 (Value.mk Kind.String true [] (Val.str ""))
        (Integer.mk IntKind.uint64 [] 18446744073709551615) =
      Outcome.ret none (Value.mk Kind.String true [] (Val.str "-1")) := by
  refine ⟨by decide, by decide, by decide⟩

/-- The string rule of `SetInteger` within the range of `int`: a number whose value fits the
platform's `int` is written as its decimal text. -/
theorem SetInteger_string_in_int_range (p : Platform) (field : Value) (number : Integer)
    (hset : field.canSet = true) (hk : field.kind = Kind.String)
    (hlo : -(2 : Int) ^ (p.intBits - 1) ≤ number.val)
    (hhi : number.val < (2 : Int) ^ (p.intBits - 1)) :
    SetInteger p field number = Outcome.ret none { field with val := Val.str (Itoa number.val) } := by
  have hw : 0 < p.intBits := by cases p <;> decide
  simp [SetInteger, hk, Value.SetString, hset, wrapSigned_eq_self p.intBits hw number.val hlo hhi]

/-- C4 as stated fails: on a 64-bit platform the valid `uintptr` number `5` and a settable
field of kind Uintptr have the same width and signedness, yet `SetInteger` returns
`rerr.NotSupported` and stores nothing. -/
theorem C4_roundtrip_fails_on_uintptr_field :
    Integer.Valid Platform.p64 (Integer.mk IntKind.uintptr [] 5) ∧
    (Value.mk Kind.Uintptr true [] (Val.uint 0)).canSet = true ∧
    (Integer.mk IntKind.uintptr [] 5).typ.signed = false ∧
    Kind.uintBits Platform.p64 (Value.mk Kind.Uintptr true [] (Val.uint 0)).kind =
      some ((Integer.mk IntKind.uintptr [] 5).typ.bits Platform.p64) ∧
    SetInteger Platform.p64 (Value.mk Kind.Uintptr true [] (Val.uint 0))
        (Integer.mk IntKind.uintptr [] 5) =
      Outcome.ret (some Err.NotSupported) (Value.mk Kind.Uintptr true [] (Val.uint 0)) := by
  refine ⟨by decide, rfl, rfl, rfl, rfl⟩

/-- C4, amended: for every value of an integer type, `SetInteger` on a settable destination
field of one of the kinds int8..int64/int, uint8..uint64/uint (not uintptr) that has the
width and signedness of the type returns no error, and reading the field back gives the
value. -/
theorem C4_SetInteger_roundtrip (p : Platform) (field : Value) (number : Integer)
    (hvalid : number.Valid p) (hset : field.canSet = true) :
    (number.typ.signed = true → Kind.intBits p field.kind = some (number.typ.bits p) →
      ∃ field', SetInteger p field number = Outcome.ret none field' ∧
        field'.readInt p = some number.val) ∧
    (number.typ.signed = false → Kind.uintBits p field.kind = some (number.typ.bits p) →
      field.kind ≠ Kind.Uintptr →
      ∃ field', SetInteger p field number = Outcome.ret none field' ∧
        field'.readUint p = some number.val) := by
  constructor
  · intro hs hk
    obtain ⟨hw0, hw64⟩ := intBits_bounds p field.kind _ hk
    simp only [Integer.Valid, hs, if_true] at hvalid
    have hmono : (2 : Int) ^ (number.typ.bits p - 1) ≤ (2 : Int) ^ (64 - 1) :=
      pow_le_pow_right₀ (by norm_num) (by omega)
    have h64 : wrapSigned 64 number.val = number.val :=
      wrapSigned_eq_self 64 (by norm_num) _ (by omega) (by omega)
    have hw : wrapSigned (number.typ.bits p) number.val = number.val :=
      wrapSigned_eq_self _ hw0 _ hvalid.1 hvalid.2
    exact ⟨_, SetInteger_signed_eq p field number _ hset hk,
      by simp [Value.readInt, hk, h64, hw]⟩
  · intro hs hk hne
    obtain ⟨hw0, hw64⟩ := uintBits_bounds p field.kind _ hk
    simp only [Integer.Valid, hs] at hvalid
    have hmono : (2 : Int) ^ (number.typ.bits p) ≤ (2 : Int) ^ 64 :=
      pow_le_pow_right₀ (by norm_num) hw64
    have h64 : wrapUnsigned 64 number.val = number.val :=
      wrapUnsigned_eq_self 64 _ (by simpa using hvalid.1) (by simp at hvalid; omega)
    have hw : wrapUnsigned (number.typ.bits p) number.val = number.val :=
      wrapUnsigned_eq_self _ _ (by simpa using hvalid.1) (by simpa using hvalid.2)
    exact ⟨_, SetInteger_unsigned_eq p field number _ hset hk hne,
      by simp [Value.readUint, hk, h64, hw]⟩

/-- Witness of C4: the `int8` number `-5` set into a settable `int8` field. -/
theorem C4_SetInteger_roundtrip_witness :
    Integer.Valid Platform.p64 (Integer.mk IntKind.int8 [] (-5)) ∧
    (Value.mk Kind.Int8 true [] (Val.int 0)).canSet = true ∧
    ∃ field', SetInteger Platform.p64 (Value.mk Kind.Int8 true [] (Val.int 0))
        (Integer.mk IntKind.int8 [] (-5)) = Outcome.ret none field' ∧
      field'.readInt Platform.p64 = some (Integer.mk IntKind.int8 [] (-5)).val :=
  ⟨by decide, rfl,
    (C4_SetInteger_roundtrip Platform.p64 (Value.mk Kind.Int8 true [] (Val.int 0))
      (Integer.mk IntKind.int8 [] (-5)) (by decide) rfl).1 rfl rfl⟩

/-! ## `Parse`: the claims -/

/-- The body decoder is the only collaborator `parseBody` calls. -/
theorem parseBody_trace {V R : Type} (r : Roamer V R) (req : Request) (typeName : String)
    (mem : Mem V) : ∀ e ∈ (parseBody r req typeName mem).trace, e.isDecode = true := by
  unfold parseBody
  split
  · simp
  · dsimp only
    split
    · simp
    · split <;> simp [Event.isDecode]

/-- C5: `Parse` with a nil destination returns an error that wraps `rerr.NilValue` and calls
no decoder, parser, formatter or hook. -/
theorem C5_Parse_nil_destination {V R : Type} (r : Roamer V R) (env : Env V R)
    (req : Request) :
    ∃ e, (Parse r env req Any.nil).ret = Ret.returned (some e) ∧
      e.Is Err.NilValue = true ∧ (Parse r env req Any.nil).trace = [] :=
  ⟨Err.Wrapf Err.NilValue "ptr" [], rfl, by simp [Err.Wrapf, Err.Is], rfl⟩

/-- C6: `Parse` with a non-nil destination whose type is not a pointer returns an error that
wraps `rerr.NotPtr` and calls no decoder, parser, formatter or hook. -/
theorem C6_Parse_non_pointer {V R : Type} (r : Roamer V R) (env : Env V R) (req : Request)
    (t : TypeInfo V) (mem : Mem V) (hk : t.kind ≠ Kind.Pointer) :
    ∃ e, (Parse r env req (Any.val t mem)).ret = Ret.returned (some e) ∧
      e.Is Err.NotPtr = true ∧ (Parse r env req (Any.val t mem)).trace = [] ∧
      (Parse r env req (Any.val t mem)).mem = mem := by
  refine ⟨Err.Wrapf Err.NotPtr "`%T`" [t.name], ?_, by simp [Err.Wrapf, Err.Is], ?_, ?_⟩ <;>
    simp [Parse, hk]

/-- Witness of C6: a struct passed by value, of a type that implements `AfterParser`. -/
theorem C6_Parse_non_pointer_witness :
    (sampleType Kind.Struct Kind.Invalid).kind ≠ Kind.Pointer ∧
    ∃ e, (Parse sampleRoamer sampleEnv sampleRequest
          (Any.val (sampleType Kind.Struct Kind.Invalid) (some (Pointee.struct [])))).ret =
        Ret.returned (some e) ∧
      e.Is Err.NotPtr = true ∧
      (Parse sampleRoamer sampleEnv sampleRequest
          (Any.val (sampleType Kind.Struct Kind.Invalid) (some (Pointee.struct [])))).trace = [] ∧
      (Parse sampleRoamer sampleEnv sampleRequest
          (Any.val (sampleType Kind.Struct Kind.Invalid) (some (Pointee.struct [])))).mem =
        some (Pointee.struct []) :=
  ⟨by decide, C6_Parse_non_pointer sampleRoamer sampleEnv sampleRequest
    (sampleType Kind.Struct Kind.Invalid) (some (Pointee.struct [])) (by decide)⟩

/-- C7: `Parse` with a pointer destination whose pointee kind is none of struct, slice, array
and map returns an error that wraps `rerr.NotSupported` and calls no decoder, parser,
formatter or hook, whether or not the destination type implements `AfterParser`. -/
theorem C7_Parse_unsupported_pointee {V R : Type} (r : Roamer V R) (env : Env V R)
    (req : Request) (t : TypeInfo V) (mem : Mem V) (hk : t.kind = Kind.Pointer)
    (he : t.elem ∉ [Kind.Struct, Kind.Slice, Kind.Array, Kind.Map]) :
    ∃ e, (Parse r env req (Any.val t mem)).ret = Ret.returned (some e) ∧
      e.Is Err.NotSupported = true ∧ (Parse r env req (Any.val t mem)).trace = [] ∧
      (Parse r env req (Any.val t mem)).mem = mem := by
  refine ⟨Err.Wrapf Err.NotSupported "`%T`" [t.name], ?_, by simp [Err.Wrapf, Err.Is], ?_, ?_⟩ <;>
    · simp only [Parse, hk]
      cases hel : t.elem <;> simp [hel] at he <;> simp

/-- Witness of C7: a `*int` destination of a type that implements `AfterParser`. -/
theorem C7_Parse_unsupported_pointee_witness :
    (sampleType Kind.Pointer Kind.Int).kind = Kind.Pointer ∧
    (sampleType Kind.Pointer Kind.Int).elem ∉ [Kind.Struct, Kind.Slice, Kind.Array, Kind.Map] ∧
    (sampleType Kind.Pointer Kind.Int).AfterParse.isSome = true ∧
    ∃ e, (Parse sampleRoamer sampleEnv sampleRequest
          (Any.val (sampleType Kind.Pointer Kind.Int) (some (Pointee.value 3)))).ret =
        Ret.returned (some e) ∧
      e.Is Err.NotSupported = true ∧
      (Parse sampleRoamer sampleEnv sampleRequest
          (Any.val (sampleType Kind.Pointer Kind.Int) (some (Pointee.value 3)))).trace = [] ∧
      (Parse sampleRoamer sampleEnv sampleRequest
          (Any.val (sampleType Kind.Pointer Kind.Int) (some (Pointee.value 3)))).mem =
        some (Pointee.value 3) :=
  ⟨rfl, by decide, rfl, C7_Parse_unsupported_pointee sampleRoamer sampleEnv sampleRequest
    (sampleType Kind.Pointer Kind.Int) (some (Pointee.value 3)) rfl (by decide)⟩

/-- C8: `Parse` with a pointer to a slice, array or map runs only the body-decode step: every
collaborator call is a decoder call or the hook, a failure of body decoding is returned as
it is, and after a successful body decoding only the hook follows. -/
theorem C8_Parse_sequence_pointee {V R : Type} (r : Roamer V R) (env : Env V R)
    (req : Request) (t : TypeInfo V) (mem : Mem V) (hk : t.kind = Kind.Pointer)
    (he : t.elem = Kind.Slice ∨ t.elem = Kind.Array ∨ t.elem = Kind.Map) :
    (∀ e ∈ (Parse r env req (Any.val t mem)).trace,
      e.fieldIndex = none ∧ (e.isDecode = true ∨ e = Event.afterParse req)) ∧
    ((parseBody r req t.name mem).ret ≠ Ret.returned none →
      Parse r env req (Any.val t mem) = parseBody r req t.name mem) ∧
    ((parseBody r req t.name mem).ret = Ret.returned none →
      Parse r env req (Any.val t mem) = callAfterParse t req (parseBody r req t.name mem)) ∧
    ((parseBody r req t.name mem).ret = Ret.returned none → t.AfterParse = none →
      Parse r env req (Any.val t mem) = parseBody r req t.name mem) := by
  have hP : Parse r env req (Any.val t mem) =
      if (parseBody r req t.name mem).ret != Ret.returned none then parseBody r req t.name mem
      else callAfterParse t req (parseBody r req t.name mem) := by
    rcases he with he | he | he <;> simp [Parse, hk, he]
  have hb := parseBody_trace r req t.name mem
  have hdec : ∀ e : Event, e.isDecode = true → e.fieldIndex = none := by
    intro e he'
    cases e <;> simp_all [Event.isDecode, Event.fieldIndex]
  refine ⟨?_, ?_, ?_, ?_⟩
  · rw [hP]
    split
    · intro e hmem
      exact ⟨hdec e (hb e hmem), Or.inl (hb e hmem)⟩
    · unfold callAfterParse
      split
      · intro e hmem
        simp only [List.mem_append, List.mem_singleton] at hmem
        rcases hmem with hmem | hmem
        · exact ⟨hdec e (hb e hmem), Or.inl (hb e hmem)⟩
        · subst hmem
          exact ⟨rfl, Or.inr rfl⟩
      · intro e hmem
        exact ⟨hdec e (hb e hmem), Or.inl (hb e hmem)⟩
  · intro hne
    rw [hP]
    simp [hne]
  · intro heq
    rw [hP]
    simp [heq]
  · intro heq hnone
    rw [hP]
    simp only [heq, bne_self_eq_false, Bool.false_eq_true, if_false, callAfterParse, hnone]
    rw [← heq]

/-- Witness of C8: a pointer to a slice, with the sample roamer (one parser, one formatter
and a failing JSON decoder registered). -/
theorem C8_Parse_sequence_pointee_witness :
    (sampleType Kind.Pointer Kind.Slice).kind = Kind.Pointer ∧
    (parseBody sampleRoamer sampleRequest (sampleType Kind.Pointer Kind.Slice).name
        (some (Pointee.value 0))).ret ≠ Ret.returned none ∧
    Parse sampleRoamer sampleEnv sampleRequest
        (Any.val (sampleType Kind.Pointer Kind.Slice) (some (Pointee.value 0))) =
      parseBody sampleRoamer sampleRequest (sampleType Kind.Pointer Kind.Slice).name
        (some (Pointee.value 0)) :=
  ⟨rfl, by decide,
    (C8_Parse_sequence_pointee sampleRoamer sampleEnv sampleRequest
      (sampleType Kind.Pointer Kind.Slice) (some (Pointee.value 0)) rfl (Or.inl rfl)).2.1
      (by decide)⟩

/-! ## The field walk: which collaborators it calls, and what it leaves alone -/

theorem formatLoop_trace {V : Type} (i : Nat) (tag : String)
    (entries : List (String × Formatter V)) (v : V) (res : Option Err) (v' : V)
    (d : List Event) (h : formatLoop i tag entries v = (res, v', d)) :
    ∀ e ∈ d, ∃ key, e = Event.format i key := by
  induction entries generalizing v res v' d with
  | nil =>
    simp only [formatLoop, Prod.mk.injEq] at h
    obtain ⟨-, -, rfl⟩ := h
    simp
  | cons kf rest ih =>
    obtain ⟨key, f⟩ := kf
    rcases hf : f.Format tag v with ⟨_ | err, v1⟩
    · rcases hl : formatLoop i tag rest v1 with ⟨res1, v2, d1⟩
      simp only [formatLoop, hf, hl, Prod.mk.injEq] at h
      obtain ⟨-, -, rfl⟩ := h
      intro e he
      simp only [List.mem_cons] at he
      rcases he with rfl | he
      · exact ⟨key, rfl⟩
      · exact ih _ _ _ _ hl e he
    · simp only [formatLoop, hf, Prod.mk.injEq] at h
      obtain ⟨-, -, rfl⟩ := h
      simp

theorem formatFieldValue_trace {V R : Type} (r : Roamer V R) (env : Env V R) (i : Nat)
    (ft : StructField) (v : V) (res : Option Err) (v' : V) (d : List Event)
    (h : formatFieldValue r env i ft v = (res, v', d)) :
    ∀ e ∈ d, ∃ key, e = Event.format i key := by
  unfold formatFieldValue at h
  by_cases h1 : (!Formatters.has env r.formatters ft.Tag) = true
  · simp only [h1, if_true, Prod.mk.injEq] at h
    obtain ⟨-, -, rfl⟩ := h
    simp
  · by_cases h2 : (!env.Pointer v) = true
    · simp only [h1, h2, if_true, Prod.mk.injEq] at h
      obtain ⟨-, -, rfl⟩ := h
      simp
    · simp only [h1, h2] at h
      exact formatLoop_trace i ft.Tag _ v res v' d h

theorem parseLoop_trace {V R : Type} (env : Env V R) (req : Request) (typeName : String)
    (i : Nat) (ft : StructField) (entries : List (String × Parser R)) (v : V) (cache : Cache R)
    (res : Option Err) (v' : V) (cache' : Cache R) (d : List Event)
    (h : parseLoop env req typeName i ft entries v cache = (res, v', cache', d)) :
    ∀ e ∈ d, (∃ tag, e = Event.parse i tag) ∨ (∃ tag, e = Event.set i tag) := by
  induction entries generalizing v cache res v' cache' d with
  | nil =>
    simp only [parseLoop, Prod.mk.injEq] at h
    obtain ⟨-, -, -, rfl⟩ := h
    simp
  | cons kp rest ih =>
    obtain ⟨tag, p⟩ := kp
    rcases hp : p.Parse req ft.Tag cache with ⟨raw, _ | _, c1⟩
    · rcases hl : parseLoop env req typeName i ft rest v c1 with ⟨res1, v1, c2, d1⟩
      simp only [parseLoop, hp, hl, Prod.mk.injEq] at h
      obtain ⟨-, -, -, rfl⟩ := h
      intro e he
      simp only [List.mem_cons] at he
      rcases he with rfl | he
      · exact Or.inl ⟨tag, rfl⟩
      · exact ih _ _ _ _ _ _ hl e he
    · rcases hs : env.Set v raw with ⟨_ | err, v1⟩ <;>
      · simp only [parseLoop, hp, hs, Prod.mk.injEq] at h
        obtain ⟨-, -, -, rfl⟩ := h
        intro e he
        simp only [List.mem_cons, List.mem_singleton, List.not_mem_nil, or_false] at he
        rcases he with rfl | rfl
        · exact Or.inl ⟨tag, rfl⟩
        · exact Or.inr ⟨tag, rfl⟩

/-- One iteration of the walk, for field `j`: it only adds calls made for field `j`, keeps the
number of fields, and leaves every other field as it is. -/
theorem walkField_frame {V R : Type} (r : Roamer V R) (env : Env V R) (req : Request)
    (typeName : String) (j : Nat) (s : WalkState V R) :
    (∃ d, (walkField r env req typeName j s).state.trace = s.trace ++ d ∧
      ∀ e ∈ d, e.fieldIndex = some j) ∧
    (walkField r env req typeName j s).state.fields.length = s.fields.length ∧
    ∀ k, k ≠ j → (walkField r env req typeName j s).state.fields[k]? = s.fields[k]? := by
  have hfmt : ∀ (ft : StructField) (v : V) (res : Option Err) (v' : V) (d : List Event),
      formatFieldValue r env j ft v = (res, v', d) → ∀ e ∈ d, e.fieldIndex = some j := by
    intro ft v res v' d h e he
    obtain ⟨key, rfl⟩ := formatFieldValue_trace r env j ft v res v' d h e he
    rfl
  have hprs : ∀ (ft : StructField) (entries : List (String × Parser R)) (v : V)
      (cache : Cache R) (res : Option Err) (v' : V) (cache' : Cache R) (d : List Event),
      parseLoop env req typeName j ft entries v cache = (res, v', cache', d) →
      ∀ e ∈ d, e.fieldIndex = some j := by
    intro ft entries v cache res v' cache' d h e he
    rcases parseLoop_trace env req typeName j ft entries v cache res v' cache' d h e he with
      ⟨tag, rfl⟩ | ⟨tag, rfl⟩ <;> rfl
  have hself : ∃ d, s.trace = s.trace ++ d ∧ ∀ e ∈ d, e.fieldIndex = some j :=
    ⟨[], by simp, by simp⟩
  have hset : ∀ (slot : Slot V) (k : Nat), k ≠ j → (s.fields.set j slot)[k]? = s.fields[k]? :=
    fun slot k hk => List.getElem?_set_ne (Ne.symm hk)
  unfold walkField
  cases hft : fieldTypeAt r env s.fields j with
  | none =>
    by_cases hfast : r.experimentalFastStructField = true
    · simp only [hfast, if_true, Step.state]
      exact ⟨hself, by simp, by simp⟩
    · simp only [hfast, Step.state]
      exact ⟨hself, by simp, by simp⟩
  | some ft =>
    by_cases hexp : (!ft.IsExported || ft.Tag.length == 0) = true
    · simp only [hexp, if_true, Step.state]
      exact ⟨hself, by simp, by simp⟩
    · cases hslot : s.fields[j]? with
      | none =>
        simp only [hexp, Step.state]
        exact ⟨hself, by simp, by simp⟩
      | some slot =>
        by_cases hskip : (r.skipFilled && !env.IsZero slot.value) = true
        · by_cases hf : r.hasFormatters = true
          · rcases hv : formatFieldValue r env j ft slot.value with ⟨_ | err, v, d⟩ <;>
            · simp only [hexp, hskip, hf, hv, if_true, Step.state]
              exact ⟨⟨d, rfl, hfmt _ _ _ _ _ hv⟩, by simp, fun k hk => hset _ k hk⟩
          · simp only [hexp, hskip, hf, if_true, Step.state]
            exact ⟨hself, by simp, by simp⟩
        · rcases hp : parseLoop env req typeName j ft (env.rangeParsers j r.parsers)
              slot.value s.cache with ⟨_ | err, v, cache, d⟩
          · by_cases hf : r.hasFormatters = true
            · rcases hv : formatFieldValue r env j ft v with ⟨_ | err, v', d'⟩ <;>
              · simp only [hexp, hskip, hf, hp, hv, if_true, Step.state]
                refine ⟨⟨d ++ d', by simp, ?_⟩, by simp, fun k hk => hset _ k hk⟩
                intro e he
                rcases List.mem_append.mp he with he | he
                · exact hprs _ _ _ _ _ _ _ _ hp e he
                · exact hfmt _ _ _ _ _ hv e he
            · simp only [hexp, hskip, hf, hp, Step.state]
              exact ⟨⟨d, rfl, hprs _ _ _ _ _ _ _ _ hp⟩, by simp, fun k hk => hset _ k hk⟩
          · simp only [hexp, hskip, hp, Step.state]
            exact ⟨⟨d, rfl, hprs _ _ _ _ _ _ _ _ hp⟩, by simp, fun k hk => hset _ k hk⟩

/-- The walk from field `j` on: it only adds calls made for fields from `j` on, keeps the
number of fields, and leaves the fields before `j` as they are. -/
theorem walkFields_frame {V R : Type} (r : Roamer V R) (env : Env V R) (req : Request)
    (typeName : String) (n j : Nat) (s : WalkState V R) :
    (∃ d, (walkFields r env req typeName n j s).2.trace = s.trace ++ d ∧
      ∀ e ∈ d, ∃ k, j ≤ k ∧ e.fieldIndex = some k) ∧
    (walkFields r env req typeName n j s).2.fields.length = s.fields.length ∧
    ∀ k, k < j → (walkFields r env req typeName n j s).2.fields[k]? = s.fields[k]? := by
  induction n generalizing j s with
  | zero => exact ⟨⟨[], by simp [walkFields], by simp⟩, rfl, fun _ _ => rfl⟩
  | succ n ih =>
    obtain ⟨⟨d1, ht1, hd1⟩, hl1, hk1⟩ := walkField_frame r env req typeName j s
    cases hw : walkField r env req typeName j s with
    | stop ret s1 =>
      simp only [hw, Step.state] at ht1 hl1 hk1
      simp only [walkFields, hw]
      exact ⟨⟨d1, ht1, fun e he => ⟨j, le_refl j, hd1 e he⟩⟩, hl1,
        fun k hk => hk1 k (Nat.ne_of_lt hk)⟩
    | next s1 =>
      simp only [hw, Step.state] at ht1 hl1 hk1
      simp only [walkFields, hw]
      obtain ⟨⟨d2, ht2, hd2⟩, hl2, hk2⟩ := ih (j + 1) s1
      refine ⟨⟨d1 ++ d2, by rw [ht2, ht1, List.append_assoc], ?_⟩, by rw [hl2, hl1], ?_⟩
      · intro e he
        rcases List.mem_append.mp he with he | he
        · exact ⟨j, le_refl j, hd1 e he⟩
        · obtain ⟨k, hk, hek⟩ := hd2 e he
          exact ⟨k, by omega, hek⟩
      · intro k hk
        rw [hk2 k (by omega), hk1 k (Nat.ne_of_lt hk)]

/-- The iteration for a field that is already filled, under the skip-filled policy: no
parser and no `value.Set` is called, the cache is untouched, and the field keeps its value
or holds what the formatters make of that value. -/
theorem walkField_skipFilled {V R : Type} (r : Roamer V R) (env : Env V R) (req : Request)
    (typeName : String) (i : Nat) (s : WalkState V R) (slot : Slot V)
    (hskip : r.skipFilled = true) (hslot : s.fields[i]? = some slot)
    (hnz : env.IsZero slot.value = false) :
    (∃ d, (walkField r env req typeName i s).state.trace = s.trace ++ d ∧
      ∀ e ∈ d, e.isExtraction = false) ∧
    (walkField r env req typeName i s).state.cache = s.cache ∧
    (∃ slot', (walkField r env req typeName i s).state.fields[i]? = some slot' ∧
      slot'.typ = slot.typ ∧
      (slot'.value = slot.value ∨
        ∃ ft, slot'.value = (formatFieldValue r env i ft slot.value).2.1)) ∧
    (r.hasFormatters = false → (walkField r env req typeName i s).state.fields = s.fields) := by
  have hlt : i < s.fields.length := by
    by_contra hge
    rw [List.getElem?_eq_none (by omega)] at hslot
    exact absurd hslot (by simp)
  have hself : ∃ d, s.trace = s.trace ++ d ∧ ∀ e ∈ d, e.isExtraction = false :=
    ⟨[], by simp, by simp⟩
  have hkeep : ∃ slot', s.fields[i]? = some slot' ∧ slot'.typ = slot.typ ∧
      (slot'.value = slot.value ∨
        ∃ ft, slot'.value = (formatFieldValue r env i ft slot.value).2.1) :=
    ⟨slot, hslot, rfl, Or.inl rfl⟩
  have hsk : (r.skipFilled && !env.IsZero slot.value) = true := by simp [hskip, hnz]
  unfold walkField
  cases hft : fieldTypeAt r env s.fields i with
  | none =>
    by_cases hfast : r.experimentalFastStructField = true
    · simp only [hfast, if_true, Bool.false_eq_true, if_false, Step.state]
      exact ⟨hself, by simp, hkeep, by simp⟩
    · simp only [hfast, Bool.false_eq_true, if_false, Step.state]
      exact ⟨hself, by simp, hkeep, by simp⟩
  | some ft =>
    by_cases hexp : (!ft.IsExported || ft.Tag.length == 0) = true
    · simp only [hexp, if_true, Bool.false_eq_true, if_false, Step.state]
      exact ⟨hself, by simp, hkeep, by simp⟩
    · by_cases hf : r.hasFormatters = true
      · rcases hv : formatFieldValue r env i ft slot.value with ⟨_ | err, v, d⟩ <;>
        · simp only [hexp, hslot, hsk, hf, hv, if_true, Bool.false_eq_true, if_false, Step.state]
          refine ⟨⟨d, rfl, ?_⟩, by simp, ⟨{ slot with value := v }, ?_, rfl, Or.inr ⟨ft, ?_⟩⟩, ?_⟩
          · intro e he
            obtain ⟨key, rfl⟩ := formatFieldValue_trace r env i ft _ _ _ _ hv e he
            rfl
          · exact List.getElem?_set_self hlt
          · rw [hv]
          · intro hcontra
            simp at hcontra
      · simp only [hexp, hslot, hsk, hf, if_true, Bool.false_eq_true, if_false, Step.state]
        exact ⟨hself, by simp, ⟨slot, rfl, rfl, Or.inl rfl⟩, by simp⟩

/-- The walk over a field that is already filled, under the skip-filled policy, started at or
before that field: no parser and no `value.Set` is called for it, and it keeps its value or
holds what the formatters make of that value. -/
theorem walkFields_skipFilled {V R : Type} (r : Roamer V R) (env : Env V R) (req : Request)
    (typeName : String) (i : Nat) (slot : Slot V) (hskip : r.skipFilled = true)
    (hnz : env.IsZero slot.value = false) (n j : Nat) (s : WalkState V R) (hj : j ≤ i)
    (hslot : s.fields[i]? = some slot) :
    (∃ d, (walkFields r env req typeName n j s).2.trace = s.trace ++ d ∧
      ∀ e ∈ d, e.fieldIndex = some i → e.isExtraction = false) ∧
    (∃ slot', (walkFields r env req typeName n j s).2.fields[i]? = some slot' ∧
      slot'.typ = slot.typ ∧
      (slot'.value = slot.value ∨
        ∃ ft, slot'.value = (formatFieldValue r env i ft slot.value).2.1)) ∧
    (r.hasFormatters = false →
      (walkFields r env req typeName n j s).2.fields[i]? = some slot) := by
  induction n generalizing j s with
  | zero =>
    exact ⟨⟨[], by simp [walkFields], by simp⟩, ⟨slot, hslot, rfl, Or.inl rfl⟩, fun _ => hslot⟩
  | succ n ih =>
    rcases Nat.lt_or_ge j i with hlt | hge
    · obtain ⟨⟨d1, ht1, hd1⟩, -, hk1⟩ := walkField_frame r env req typeName j s
      have hd1' : ∀ e ∈ d1, e.fieldIndex = some i → e.isExtraction = false := by
        intro e he hei
        have := hd1 e he
        rw [hei] at this
        simp only [Option.some.injEq] at this
        omega
      cases hw : walkField r env req typeName j s with
      | stop ret s1 =>
        simp only [hw, Step.state] at ht1 hk1
        simp only [walkFields, hw]
        have hs1 : s1.fields[i]? = some slot := by rw [hk1 i (by omega), hslot]
        exact ⟨⟨d1, ht1, hd1'⟩, ⟨slot, hs1, rfl, Or.inl rfl⟩, fun _ => hs1⟩
      | next s1 =>
        simp only [hw, Step.state] at ht1 hk1
        simp only [walkFields, hw]
        have hs1 : s1.fields[i]? = some slot := by rw [hk1 i (by omega), hslot]
        obtain ⟨⟨d2, ht2, hd2⟩, hv2, hf2⟩ := ih (j + 1) s1 (by omega) hs1
        refine ⟨⟨d1 ++ d2, by rw [ht2, ht1, List.append_assoc], ?_⟩, hv2, hf2⟩
        intro e he
        rcases List.mem_append.mp he with he | he
        · exact hd1' e he
        · exact hd2 e he
    · have hji : j = i := by omega
      subst hji
      obtain ⟨⟨d1, ht1, hd1⟩, -, ⟨slot1, hs1, htyp1, hval1⟩, hnf1⟩ :=
        walkField_skipFilled r env req typeName j s slot hskip hslot hnz
      cases hw : walkField r env req typeName j s with
      | stop ret s1 =>
        simp only [hw, Step.state] at ht1 hs1 hnf1
        simp only [walkFields, hw]
        exact ⟨⟨d1, ht1, fun e he _ => hd1 e he⟩, ⟨slot1, hs1, htyp1, hval1⟩,
          fun hf => by rw [hnf1 hf, hslot]⟩
      | next s1 =>
        simp only [hw, Step.state] at ht1 hs1 hnf1
        simp only [walkFields, hw]
        obtain ⟨⟨d2, ht2, hd2⟩, -, hk2⟩ := walkFields_frame r env req typeName n (j + 1) s1
        refine ⟨⟨d1 ++ d2, by rw [ht2, ht1, List.append_assoc], ?_⟩,
          ⟨slot1, by rw [hk2 j (by omega), hs1], htyp1, hval1⟩,
          fun hf => by rw [hk2 j (by omega), hnf1 hf, hslot]⟩
        intro e he hei
        rcases List.mem_append.mp he with he | he
        · exact hd1 e he
        · obtain ⟨k, hk, hek⟩ := hd2 e he
          rw [hei] at hek
          simp only [Option.some.injEq] at hek
          omega

/-- The collaborator calls of `parseStruct` are decoder calls and calls made for a field:
the hook is not among them. -/
theorem parseStruct_trace {V R : Type} (r : Roamer V R) (env : Env V R) (req : Request)
    (typeName : String) (mem : Mem V) :
    ∀ e ∈ (parseStruct r env req typeName mem).trace, e.isAfterParse = false := by
  have hb : ∀ e ∈ (parseBody r req typeName mem).trace, e.isAfterParse = false := by
    intro e he
    have := parseBody_trace r req typeName mem e he
    cases e <;> simp_all [Event.isDecode, Event.isAfterParse]
  unfold parseStruct
  cases hret : (parseBody r req typeName mem).ret with
  | panicked => simpa [hret] using hb
  | returned err =>
    cases err with
    | some err => simpa [hret] using hb
    | none =>
      by_cases hp : r.hasParsers = true
      · cases hm : (parseBody r req typeName mem).mem with
        | none => simpa [hret, hp, hm] using hb
        | some pointee =>
          cases pointee with
          | value v => simpa [hret, hp, hm] using hb
          | struct fields =>
            simp only [hret, hp, hm, Bool.not_true, Bool.false_eq_true, if_false]
            obtain ⟨⟨d, ht, hd⟩, -, -⟩ := walkFields_frame r env req typeName fields.length 0
              { fields := fields, cache := [], trace := [] }
            intro e he
            rcases List.mem_append.mp he with he | he
            · exact hb e he
            · rw [ht] at he
              simp only [List.nil_append] at he
              obtain ⟨k, -, hek⟩ := hd e he
              cases e <;> simp_all [Event.fieldIndex, Event.isAfterParse]
      · simpa [hret, hp] using hb

/-- C9: for a destination that implements `AfterParser`, `Parse` calls `AfterParse` exactly
once, with the original request, after every other collaborator call, and returns the hook's
error unchanged, when the parsing step (`parseStruct` for a pointer to a struct, `parseBody`
for a pointer to a slice, array or map) returned no error; when that step failed its result
is returned as it is and the hook is not called; for every other destination no collaborator
is called at all. -/
theorem C9_Parse_after_parse_hook {V R : Type} (r : Roamer V R) (env : Env V R)
    (req : Request) (t : TypeInfo V) (mem : Mem V)
    (hook : Request → Mem V → Option Err × Mem V) (hh : t.AfterParse = some hook) :
    (∀ st : Result V,
      (t.kind = Kind.Pointer ∧
        ((t.elem = Kind.Struct ∧ st = parseStruct r env req t.name mem) ∨
         ((t.elem = Kind.Slice ∨ t.elem = Kind.Array ∨ t.elem = Kind.Map) ∧
            st = parseBody r req t.name mem))) →
      (∀ e ∈ st.trace, e.isAfterParse = false) ∧
      (st.ret = Ret.returned none →
        Parse r env req (Any.val t mem) =
          { ret := Ret.returned (hook req st.mem).1, mem := (hook req st.mem).2,
            trace := st.trace ++ [Event.afterParse req] }) ∧
      (st.ret ≠ Ret.returned none → Parse r env req (Any.val t mem) = st) ∧
      (Parse r env req (Any.val t mem)).trace.filter Event.isAfterParse =
        if st.ret = Ret.returned none then [Event.afterParse req] else []) ∧
    ((t.kind ≠ Kind.Pointer ∨ t.elem ∉ [Kind.Struct, Kind.Slice, Kind.Array, Kind.Map]) →
      (Parse r env req (Any.val t mem)).trace = []) := by
  constructor
  · intro st hst
    obtain ⟨hk, hst⟩ := hst
    have hP : Parse r env req (Any.val t mem) =
        if st.ret != Ret.returned none then st else callAfterParse t req st := by
      rcases hst with ⟨he, rfl⟩ | ⟨he | he | he, rfl⟩ <;> simp [Parse, hk, he]
    have htr : ∀ e ∈ st.trace, e.isAfterParse = false := by
      rcases hst with ⟨_, rfl⟩ | ⟨_, rfl⟩
      · exact parseStruct_trace r env req t.name mem
      · intro e he
        have := parseBody_trace r req t.name mem e he
        cases e <;> simp_all [Event.isDecode, Event.isAfterParse]
    have hfil : st.trace.filter Event.isAfterParse = [] := by
      rw [List.filter_eq_nil_iff]
      intro e he
      simp [htr e he]
    have hok : st.ret = Ret.returned none →
        Parse r env req (Any.val t mem) =
          { ret := Ret.returned (hook req st.mem).1, mem := (hook req st.mem).2,
            trace := st.trace ++ [Event.afterParse req] } := by
      intro hret
      rw [hP]
      simp [hret, callAfterParse, hh]
    have hfail : st.ret ≠ Ret.returned none → Parse r env req (Any.val t mem) = st := by
      intro hret
      rw [hP]
      simp [hret]
    refine ⟨htr, hok, hfail, ?_⟩
    by_cases hret : st.ret = Ret.returned none
    · rw [hok hret]
      simp [hret, hfil, Event.isAfterParse]
    · rw [hfail hret]
      simp [hret, hfil]
  · intro hbad
    rcases hbad with hk | he
    · simp [Parse, hk]
    · by_cases hk : t.kind = Kind.Pointer
      · simp only [Parse, hk]
        cases hel : t.elem <;> simp [hel] at he <;> simp
      · simp [Parse, hk]

/-- Witness of C9: a pointer to a struct with one unannotated field, a GET request, and a
destination type whose hook fails: the hook runs once and its error is what `Parse`
returns. -/
theorem C9_Parse_after_parse_hook_witness :
    (sampleType Kind.Pointer Kind.Struct).AfterParse = some sampleHook ∧
    (parseStruct sampleRoamer sampleEnv { sampleRequest with Method := "GET" }
        (sampleType Kind.Pointer Kind.Struct).name
        (some (Pointee.struct [Slot.mk (StructField.mk "A" "" "") 0]))).ret = Ret.returned none ∧
    Parse sampleRoamer sampleEnv { sampleRequest with Method := "GET" }
        (Any.val (sampleType Kind.Pointer Kind.Struct)
          (some (Pointee.struct [Slot.mk (StructField.mk "A" "" "") 0]))) =
      { ret := Ret.returned (some (Err.external "hook")),
        mem := some (Pointee.struct [Slot.mk (StructField.mk "A" "" "") 0]),
        trace := [Event.afterParse { sampleRequest with Method := "GET" }] } :=
  ⟨rfl, by decide,
    ((C9_Parse_after_parse_hook sampleRoamer sampleEnv { sampleRequest with Method := "GET" }
      (sampleType Kind.Pointer Kind.Struct)
      (some (Pointee.struct [Slot.mk (StructField.mk "A" "" "") 0])) sampleHook rfl).1 _
      ⟨rfl, Or.inl ⟨rfl, rfl⟩⟩).2.1 (by decide)⟩

/-- C10: skip-filled is the default of `NewRoamer`; under that policy, for a struct field that is non-zero when the field walk
starts (that is, after body decoding), `parseStruct` calls no parser and no `value.Set` for
that field; afterwards the field has its descriptor and either its value or what
`formatFieldValue` makes of that value, and with no formatter registered it is exactly as it
was. -/
theorem C10_skip_filled {V R : Type} (r : Roamer V R) (env : Env V R) (req : Request)
    (typeName : String) (mem : Mem V) (fields : List (Slot V)) (i : Nat) (slot : Slot V)
    (hskip : r.skipFilled = true)
    (hdecoded : (parseBody r req typeName mem).mem = some (Pointee.struct fields))
    (hslot : fields[i]? = some slot) (hnz : env.IsZero slot.value = false) :
    (NewRoamer ([] : List (Roamer V R → Roamer V R))).skipFilled = true ∧
    (∀ tag, Event.parse i tag ∉ (parseStruct r env req typeName mem).trace ∧
      Event.set i tag ∉ (parseStruct r env req typeName mem).trace) ∧
    (∃ fields' slot', (parseStruct r env req typeName mem).mem = some (Pointee.struct fields') ∧
      fields'[i]? = some slot' ∧ slot'.typ = slot.typ ∧
      (slot'.value = slot.value ∨
        ∃ ft, slot'.value = (formatFieldValue r env i ft slot.value).2.1)) ∧
    (r.hasFormatters = false →
      ∃ fields', (parseStruct r env req typeName mem).mem = some (Pointee.struct fields') ∧
        fields'[i]? = some slot) := by
  have hb : ∀ e ∈ (parseBody r req typeName mem).trace,
      e.fieldIndex = some i → e.isExtraction = false := by
    intro e he
    have := parseBody_trace r req typeName mem e he
    cases e <;> simp_all [Event.isDecode, Event.fieldIndex]
  have hgoal : (∀ e ∈ (parseStruct r env req typeName mem).trace,
        e.fieldIndex = some i → e.isExtraction = false) ∧
      (∃ fields' slot', (parseStruct r env req typeName mem).mem =
          some (Pointee.struct fields') ∧
        fields'[i]? = some slot' ∧ slot'.typ = slot.typ ∧
        (slot'.value = slot.value ∨
          ∃ ft, slot'.value = (formatFieldValue r env i ft slot.value).2.1)) ∧
      (r.hasFormatters = false →
        ∃ fields', (parseStruct r env req typeName mem).mem = some (Pointee.struct fields') ∧
          fields'[i]? = some slot) := by
    have hsame : (parseStruct r env req typeName mem) = parseBody r req typeName mem →
        (∀ e ∈ (parseStruct r env req typeName mem).trace,
          e.fieldIndex = some i → e.isExtraction = false) ∧
        (∃ fields' slot', (parseStruct r env req typeName mem).mem =
            some (Pointee.struct fields') ∧
          fields'[i]? = some slot' ∧ slot'.typ = slot.typ ∧
          (slot'.value = slot.value ∨
            ∃ ft, slot'.value = (formatFieldValue r env i ft slot.value).2.1)) ∧
        (r.hasFormatters = false →
          ∃ fields', (parseStruct r env req typeName mem).mem =
              some (Pointee.struct fields') ∧
            fields'[i]? = some slot) := by
      intro heq
      rw [heq]
      exact ⟨hb, ⟨fields, slot, hdecoded, hslot, rfl, Or.inl rfl⟩, fun _ => ⟨fields, hdecoded, hslot⟩⟩
    cases hret : (parseBody r req typeName mem).ret with
    | panicked => exact hsame (by simp [parseStruct, hret])
    | returned err =>
      cases err with
      | some err => exact hsame (by simp [parseStruct, hret])
      | none =>
        by_cases hp : r.hasParsers = true
        · obtain ⟨⟨d, ht, hd⟩, ⟨slot', hs', htyp, hval⟩, hnf⟩ :=
            walkFields_skipFilled r env req typeName i slot hskip hnz fields.length 0
              { fields := fields, cache := [], trace := [] } (Nat.zero_le i) hslot
          have hPS : parseStruct r env req typeName mem =
              { ret := (walkFields r env req typeName fields.length 0
                  { fields := fields, cache := [], trace := [] }).1,
                mem := some (Pointee.struct (walkFields r env req typeName fields.length 0
                  { fields := fields, cache := [], trace := [] }).2.fields),
                trace := (parseBody r req typeName mem).trace ++
                  (walkFields r env req typeName fields.length 0
                    { fields := fields, cache := [], trace := [] }).2.trace } := by
            simp [parseStruct, hret, hp, hdecoded]
          rw [hPS]
          refine ⟨?_, ⟨_, slot', rfl, hs', htyp, hval⟩, fun hf => ⟨_, rfl, hnf hf⟩⟩
          intro e he
          rcases List.mem_append.mp he with he | he
          · exact hb e he
          · rw [ht] at he
            simp only [List.nil_append] at he
            exact hd e he
        · exact hsame (by simp [parseStruct, hret, hp])
  refine ⟨rfl, ?_, hgoal.2.1, hgoal.2.2⟩
  intro tag
  constructor
  · intro hmem
    have := hgoal.1 _ hmem rfl
    simp [Event.isExtraction] at this
  · intro hmem
    have := hgoal.1 _ hmem rfl
    simp [Event.isExtraction] at this

/-- Witness of C10: the sample roamer (skip-filled by default, a parser that always finds 42)
and a struct whose field `ID`, annotated `query`, already holds 7. -/
theorem C10_skip_filled_witness :
    sampleRoamer.skipFilled = true ∧
    (parseBody sampleRoamer { sampleRequest with Method := "GET" } "*main.T"
        (some (Pointee.struct [Slot.mk (StructField.mk "ID" "" "query") 7]))).mem =
      some (Pointee.struct [Slot.mk (StructField.mk "ID" "" "query") 7]) ∧
    [Slot.mk (StructField.mk "ID" "" "query") 7][0]? =
      some (Slot.mk (StructField.mk "ID" "" "query") 7) ∧
    sampleEnv.IsZero (Slot.mk (StructField.mk "ID" "" "query") 7).value = false ∧
    ∀ tag,
      Event.parse 0 tag ∉ (parseStruct sampleRoamer sampleEnv
        { sampleRequest with Method := "GET" } "*main.T"
        (some (Pointee.struct [Slot.mk (StructField.mk "ID" "" "query") 7]))).trace ∧
      Event.set 0 tag ∉ (parseStruct sampleRoamer sampleEnv
        { sampleRequest with Method := "GET" } "*main.T"
        (some (Pointee.struct [Slot.mk (StructField.mk "ID" "" "query") 7]))).trace :=
  ⟨rfl, by decide, rfl, rfl,
    (C10_skip_filled sampleRoamer sampleEnv { sampleRequest with Method := "GET" } "*main.T"
      (some (Pointee.struct [Slot.mk (StructField.mk "ID" "" "query") 7]))
      [Slot.mk (StructField.mk "ID" "" "query") 7] 0
      (Slot.mk (StructField.mk "ID" "" "query") 7) rfl (by decide) rfl rfl).2.1⟩

/-! ## Body decoding: the claims -/

/-- The body of `parseBody`, with the lookup key named. -/
theorem parseBody_eq {V R : Type} (r : Roamer V R) (req : Request) (typeName : String)
    (mem : Mem V) :
    parseBody r req typeName mem =
      if (!r.hasDecoders || req.ContentLength == 0 || req.Method == "GET") = true then
        { ret := Ret.returned none, mem := mem, trace := [] }
      else
        match r.decoders.lookup (contentTypeKey req) with
        | none => { ret := Ret.returned none, mem := mem, trace := [] }
        | some d =>
          match d.Decode req mem with
          | (some err, mem') =>
            { ret := Ret.returned (some (Err.WithStack (Err.DecodeError
                (Err.WithMessagef err "decode `%s` request body for `%T`"
                  [contentTypeKey req, typeName])))),
              mem := mem', trace := [Event.decode (contentTypeKey req)] }
          | (none, mem') =>
            { ret := Ret.returned none, mem := mem', trace := [Event.decode (contentTypeKey req)] } :=
  rfl

/-- The flag `hasDecoders` of a roamer made by `NewRoamer` tells whether a decoder is
registered. -/
theorem NewRoamer_hasDecoders {V R : Type} (opts : List (Roamer V R → Roamer V R)) :
    (NewRoamer opts).hasDecoders = false ↔ (NewRoamer opts).decoders = [] := by
  unfold NewRoamer
  dsimp only
  split
  · simp [Roamer.enableExperimentalFeatures, List.length_eq_zero]
  · simp [List.length_eq_zero]

/-- C13 as stated fails: a HEAD request with a body of length 2 and a registered JSON decoder
has the decoder called, and here body decoding returns its error. -/
theorem C13_head_request_is_decoded :
    ({ sampleRequest with Method := "HEAD" } : Request).Method = "HEAD" ∧
    (parseBody sampleRoamer { sampleRequest with Method := "HEAD" } "*main.T"
        (some (Pointee.value 0))).trace = [Event.decode "application/json"] ∧
    (parseBody sampleRoamer { sampleRequest with Method := "HEAD" } "*main.T"
        (some (Pointee.value 0))).ret ≠ Ret.returned none := by
  refine ⟨rfl, by decide, by decide⟩

/-- C13, amended: if no decoder is registered (for a roamer made by `NewRoamer`: the flag
`hasDecoders` is off exactly then), or the content length of the request is zero, or its
method is GET, then `parseBody` returns no error, calls no decoder and leaves the destination
as it is. -/
theorem C13_parseBody_noop {V R : Type} (r : Roamer V R) (req : Request) (typeName : String)
    (mem : Mem V)
    (h : r.hasDecoders = false ∨ req.ContentLength = 0 ∨ req.Method = "GET") :
    parseBody r req typeName mem = { ret := Ret.returned none, mem := mem, trace := [] } ∧
    ∀ opts : List (Roamer V R → Roamer V R),
      (NewRoamer opts).hasDecoders = false ↔ (NewRoamer opts).decoders = [] := by
  refine ⟨?_, NewRoamer_hasDecoders⟩
  rw [parseBody_eq]
  rcases h with h | h | h <;> simp [h]

/-- Witness of C13: a GET request, with a failing JSON decoder registered. -/
theorem C13_parseBody_noop_witness :
    (sampleRoamer.hasDecoders = false ∨
      ({ sampleRequest with Method := "GET" } : Request).ContentLength = 0 ∨
      ({ sampleRequest with Method := "GET" } : Request).Method = "GET") ∧
    parseBody sampleRoamer { sampleRequest with Method := "GET" } "*main.T"
        (some (Pointee.value 0)) =
      { ret := Ret.returned none, mem := some (Pointee.value 0), trace := [] } :=
  ⟨Or.inr (Or.inr rfl),
    (C13_parseBody_noop sampleRoamer { sampleRequest with Method := "GET" } "*main.T"
      (some (Pointee.value 0)) (Or.inr (Or.inr rfl))).1⟩

/-- C14: when no decoder is registered under the normalized content type, `parseBody` calls no
decoder, leaves the destination as it is and returns no error; so `Parse` on a pointer to a
slice, array or map is just the hook step on the untouched destination, and `parseStruct`
with no parser registered returns no error either. -/
theorem C14_decode_skip {V R : Type} (r : Roamer V R) (env : Env V R) (req : Request)
    (t : TypeInfo V) (mem : Mem V)
    (hnone : r.decoders.lookup (contentTypeKey req) = none) :
    parseBody r req t.name mem = { ret := Ret.returned none, mem := mem, trace := [] } ∧
    (t.kind = Kind.Pointer → (t.elem = Kind.Slice ∨ t.elem = Kind.Array ∨ t.elem = Kind.Map) →
      Parse r env req (Any.val t mem) =
        callAfterParse t req { ret := Ret.returned none, mem := mem, trace := [] }) ∧
    (r.hasParsers = false →
      parseStruct r env req t.name mem = { ret := Ret.returned none, mem := mem, trace := [] }) := by
  have hb : parseBody r req t.name mem =
      { ret := Ret.returned none, mem := mem, trace := [] } := by
    rw [parseBody_eq]
    split
    · rfl
    · simp [hnone]
  refine ⟨hb, ?_, ?_⟩
  · intro hk he
    rcases he with he | he | he <;> simp [Parse, hk, he, hb]
  · intro hp
    simp [parseStruct, hb, hp]

/-- Witness of C14: the content type `application/json; charset=utf-8` with a decoder
registered for `text/xml` only, and a pointer to a slice without a hook. -/
theorem C14_decode_skip_witness :
    xmlRoamer.decoders.lookup (contentTypeKey sampleRequest) = none ∧
    (sampleRequest.HeaderGet "Content-Type" = "application/json; charset=utf-8") ∧
    Parse xmlRoamer sampleEnv sampleRequest
        (Any.val (plainType Kind.Pointer Kind.Slice) (some (Pointee.value 5))) =
      { ret := Ret.returned none, mem := some (Pointee.value 5), trace := [] } :=
  ⟨Option.isNone_iff_eq_none.mp (by decide), by decide,
    (C14_decode_skip xmlRoamer sampleEnv sampleRequest (plainType Kind.Pointer Kind.Slice)
      (some (Pointee.value 5)) (Option.isNone_iff_eq_none.mp (by decide))).2.1 rfl (Or.inl rfl)⟩

/-- Every error is found on its own `Unwrap` chain. -/
theorem Err.Is_self (e : Err) : e.Is e = true := by
  cases e <;> simp [Err.Is]

/-- C15: when a decoder is selected and returns an error `e`, `parseBody` returns a
`rerr.DecodeError` under a stack, whose field `Err` wraps `e` (so `e` is found by `errors.Is`
and is its `Cause`), after the one decoder call; `Parse` on a pointer to a struct, slice,
array or map returns just that, so neither the field walk nor the hook runs. When the
selected decoder succeeds, `parseBody` returns no error. -/
theorem C15_decode_error {V R : Type} (r : Roamer V R) (env : Env V R) (req : Request)
    (t : TypeInfo V) (mem : Mem V) (d : Decoder V)
    (hdec : r.hasDecoders = true) (hlen : req.ContentLength ≠ 0) (hget : req.Method ≠ "GET")
    (hsel : r.decoders.lookup (contentTypeKey req) = some d) :
    (∀ (e : Err) (mem' : Mem V), d.Decode req mem = (some e, mem') →
      parseBody r req t.name mem =
        { ret := Ret.returned (some (Err.WithStack (Err.DecodeError
            (Err.WithMessagef e "decode `%s` request body for `%T`"
              [contentTypeKey req, t.name])))),
          mem := mem', trace := [Event.decode (contentTypeKey req)] } ∧
      (∃ inner, (Err.WithStack (Err.DecodeError
            (Err.WithMessagef e "decode `%s` request body for `%T`"
              [contentTypeKey req, t.name]))).AsDecodeError = some inner ∧
          inner.Is e = true ∧ inner.Cause = e.Cause) ∧
      (t.kind = Kind.Pointer →
        (t.elem = Kind.Struct ∨ t.elem = Kind.Slice ∨ t.elem = Kind.Array ∨
          t.elem = Kind.Map) →
        Parse r env req (Any.val t mem) = parseBody r req t.name mem)) ∧
    (∀ mem' : Mem V, d.Decode req mem = (none, mem') →
      parseBody r req t.name mem =
        { ret := Ret.returned none, mem := mem',
          trace := [Event.decode (contentTypeKey req)] }) := by
  have hguard : (!r.hasDecoders || req.ContentLength == 0 || req.Method == "GET") = false := by
    simp [hdec, hlen, hget]
  constructor
  · intro e mem' hd
    have hb : parseBody r req t.name mem =
        { ret := Ret.returned (some (Err.WithStack (Err.DecodeError
            (Err.WithMessagef e "decode `%s` request body for `%T`"
              [contentTypeKey req, t.name])))),
          mem := mem', trace := [Event.decode (contentTypeKey req)] } := by
      rw [parseBody_eq]
      simp [hguard, hsel, hd]
    refine ⟨hb, ⟨_, rfl, ?_, rfl⟩, ?_⟩
    · simp [Err.WithMessagef, Err.Is, Err.Is_self]
    · intro hk he
      rcases he with he | he | he | he
      · simp [Parse, hk, he, parseStruct, hb]
      · simp [Parse, hk, he, hb]
      · simp [Parse, hk, he, hb]
      · simp [Parse, hk, he, hb]
  · intro mem' hd
    rw [parseBody_eq]
    simp [hguard, hsel, hd]

/-- Witness of C15: the sample roamer, whose JSON decoder fails, a POST request with a JSON
body, and a pointer to a struct of a type with a hook. -/
theorem C15_decode_error_witness :
    sampleRoamer.hasDecoders = true ∧ sampleRequest.ContentLength ≠ 0 ∧
    sampleRequest.Method ≠ "GET" ∧
    (sampleRoamer.decoders.lookup (contentTypeKey sampleRequest)).isSome = true ∧
    Parse sampleRoamer sampleEnv sampleRequest
        (Any.val (sampleType Kind.Pointer Kind.Struct)
          (some (Pointee.struct [Slot.mk (StructField.mk "ID" "" "query") 0]))) =
      parseBody sampleRoamer sampleRequest (sampleType Kind.Pointer Kind.Struct).name
        (some (Pointee.struct [Slot.mk (StructField.mk "ID" "" "query") 0])) :=
  ⟨rfl, by decide, by decide, by decide,
    ((C15_decode_error sampleRoamer sampleEnv sampleRequest (sampleType Kind.Pointer Kind.Struct)
      (some (Pointee.struct [Slot.mk (StructField.mk "ID" "" "query") 0])) sampleDecoder
      rfl (by decide) (by decide) rfl).1 (Err.external "bad body")
      (some (Pointee.struct [Slot.mk (StructField.mk "ID" "" "query") 0])) rfl).2.2 rfl
      (Or.inl rfl)⟩

/-- Cutting at a one-character separator that does not occur finds nothing. -/
theorem cutChars_single_none (c : Char) (l : List Char) (h : c ∉ l) :
    cutChars [c] l = none := by
  induction l with
  | nil => simp [cutChars]
  | cons x xs ih =>
    simp only [List.mem_cons, not_or] at h
    have hx : ¬ c = x := h.1
    simp [cutChars, List.isPrefixOf, hx, ih h.2]

/-- Cutting at a one-character separator splits at its first occurrence. -/
theorem cutChars_single_some (c : Char) (a b : List Char) (h : c ∉ a) :
    cutChars [c] (a ++ c :: b) = some (a, b) := by
  induction a with
  | nil => simp [cutChars, List.isPrefixOf]
  | cons x xs ih =>
    simp only [List.mem_cons, not_or] at h
    have hx : ¬ c = x := h.1
    simp [cutChars, List.isPrefixOf, hx, ih h.2]

/-- What is found before a one-character separator does not contain it. -/
theorem cutChars_single_before (c : Char) (l a b : List Char)
    (h : cutChars [c] l = some (a, b)) : c ∉ a := by
  induction l generalizing a b with
  | nil => simp [cutChars] at h
  | cons x xs ih =>
    by_cases hx : c = x
    · have hcut : cutChars [c] (x :: xs) = some ([], xs) := by
        simp [cutChars, List.isPrefixOf, hx]
      rw [hcut] at h
      simp only [Option.some.injEq, Prod.mk.injEq] at h
      obtain ⟨rfl, -⟩ := h
      simp
    · have hcut : cutChars [c] (x :: xs) =
          (cutChars [c] xs).map (fun r => (x :: r.1, r.2)) := by
        simp [cutChars, List.isPrefixOf, hx]
      rw [hcut] at h
      cases hc : cutChars [c] xs with
      | none => simp [hc] at h
      | some r =>
        obtain ⟨a', b'⟩ := r
        simp only [hc, Option.map_some', Option.some.injEq, Prod.mk.injEq] at h
        obtain ⟨rfl, -⟩ := h
        simp only [List.mem_cons, not_or]
        exact ⟨hx, ih a' b' hc⟩

/-- A one-character separator that is not found does not occur. -/
theorem cutChars_single_absent (c : Char) (l : List Char) (h : cutChars [c] l = none) :
    c ∉ l := by
  induction l with
  | nil => simp
  | cons x xs ih =>
    by_cases hx : c = x
    · have hcut : cutChars [c] (x :: xs) = some ([], xs) := by
        simp [cutChars, List.isPrefixOf, hx]
      rw [hcut] at h
      simp at h
    · have hcut : cutChars [c] (x :: xs) =
          (cutChars [c] xs).map (fun r => (x :: r.1, r.2)) := by
        simp [cutChars, List.isPrefixOf, hx]
      rw [hcut] at h
      simp only [Option.map_eq_none'] at h
      simp only [List.mem_cons, not_or]
      exact ⟨hx, ih h⟩

/-- The lookup key in terms of the search for `;` in the header value. -/
theorem contentTypeKey_eq (req : Request) :
    contentTypeKey req =
      match cutChars [';'] (req.HeaderGet "Content-Type").data with
      | some (before, _) => String.mk before
      | none => req.HeaderGet "Content-Type" := by
  have hsep : (";" : String).data = [';'] := rfl
  unfold contentTypeKey Cut
  rw [hsep]
  dsimp only
  cases hc : cutChars [';'] (req.HeaderGet "Content-Type").data with
  | none => rfl
  | some r =>
    obtain ⟨before, after⟩ := r
    rfl

/-- C19: the lookup key of `parseBody` is the `Content-Type` value itself when that holds no
`;`, and otherwise the text before its first `;`; the key holds no `;`; every decoder call
of `parseBody` is the call of the decoder registered under exactly that key, and with no
decoder under that key there is no decoder call at all. So `application/json; charset=utf-8`
is looked up as `application/json`. -/
theorem C19_content_type_key {V R : Type} (r : Roamer V R) (req : Request) (typeName : String)
    (mem : Mem V) :
    (';' ∉ (req.HeaderGet "Content-Type").data →
      contentTypeKey req = req.HeaderGet "Content-Type") ∧
    (∀ a b : List Char, (req.HeaderGet "Content-Type").data = a ++ ';' :: b → ';' ∉ a →
      contentTypeKey req = String.mk a) ∧
    ';' ∉ (contentTypeKey req).data ∧
    (∀ e ∈ (parseBody r req typeName mem).trace,
      e = Event.decode (contentTypeKey req) ∧
      ∃ d, r.decoders.lookup (contentTypeKey req) = some d ∧
        (parseBody r req typeName mem).mem = (d.Decode req mem).2 ∧
        ((parseBody r req typeName mem).ret = Ret.returned none ↔ (d.Decode req mem).1 = none)) ∧
    (r.decoders.lookup (contentTypeKey req) = none →
      (parseBody r req typeName mem).trace = []) ∧
    contentTypeKey
        (Request.mk "POST" 2 [("Content-Type", "application/json; charset=utf-8")] "") =
      "application/json" := by
  refine ⟨?_, ?_, ?_, ?_, ?_, by decide⟩
  · intro h
    rw [contentTypeKey_eq, cutChars_single_none _ _ h]
  · intro a b hab ha
    rw [contentTypeKey_eq, hab, cutChars_single_some _ _ _ ha]
  · rw [contentTypeKey_eq]
    cases hc : cutChars [';'] (req.HeaderGet "Content-Type").data with
    | none =>
      exact cutChars_single_absent _ _ hc
    | some r =>
      obtain ⟨before, after⟩ := r
      exact cutChars_single_before _ _ _ _ hc
  · intro e he
    rw [parseBody_eq] at he ⊢
    split at he
    · simp at he
    · cases hl : r.decoders.lookup (contentTypeKey req) with
      | none => simp [hl] at he
      | some d =>
        rcases hd : d.Decode req mem with ⟨_ | err, mem'⟩
        · simp only [hl, hd, List.mem_singleton] at he
          rename_i hg
          simp [he, hl, hd, hg]
        · simp only [hl, hd, List.mem_singleton] at he
          rename_i hg
          simp [he, hl, hd, hg]
  · intro hnone
    rw [parseBody_eq]
    split
    · rfl
    · simp [hnone]

/-! ## `SetSliceString`: the claim -/

/-- C17: on a settable string destination field `SetSliceString` returns no error and sets the
field to the elements joined with a comma; joining nothing gives the empty text, joining one
element gives that element, and `["a", "b"]` gives `"a,b"`. -/
theorem C17_SetSliceString_string (field : SliceDest) (arr : List String)
    (hset : field.canSet = true) (hk : field.kind = SliceDestKind.string) :
    SetSliceString field arr = (none, { field with val := SliceVal.str (Join arr ",") }) ∧
    Join [] "," = "" ∧
    (∀ x : String, Join [x] "," = x) ∧
    (∀ (x y : String) (rest : List String),
      Join (x :: y :: rest) "," = x ++ "," ++ Join (y :: rest) ",") ∧
    Join ["a", "b"] "," = "a,b" := by
  refine ⟨?_, rfl, fun _ => rfl, fun _ _ _ => rfl, by decide⟩
  simp [SetSliceString, hset, hk]

/-- Witness of C17: the slice `["a", "b"]` set into a settable, empty string field. -/
theorem C17_SetSliceString_string_witness :
    (SliceDest.mk SliceDestKind.string true (SliceVal.str "")).canSet = true ∧
    (SliceDest.mk SliceDestKind.string true (SliceVal.str "")).kind = SliceDestKind.string ∧
    SetSliceString (SliceDest.mk SliceDestKind.string true (SliceVal.str "")) ["a", "b"] =
      (none, { SliceDest.mk SliceDestKind.string true (SliceVal.str "") with
        val := SliceVal.str (Join ["a", "b"] ",") }) :=
  ⟨rfl, rfl,
    (C17_SetSliceString_string (SliceDest.mk SliceDestKind.string true (SliceVal.str ""))
      ["a", "b"] rfl rfl).1⟩

/-! ## Formatter application: the claim -/

/-- The formatter loop calls the formatters of a prefix of the range, in the order of the
range: all of them when it returns no error, and up to the one whose error it returns
otherwise. -/
theorem formatLoop_calls {V : Type} (i : Nat) (tag : String)
    (entries : List (String × Formatter V)) (v : V) :
    ∃ k, k ≤ entries.length ∧
      (formatLoop i tag entries v).2.2 = (entries.take k).map (fun kf => Event.format i kf.1) ∧
      ((formatLoop i tag entries v).1 = none → k = entries.length) ∧
      (∀ e, (formatLoop i tag entries v).1 = some e →
        0 < k ∧ ∃ kf v0, entries[k - 1]? = some kf ∧ (kf.2.Format tag v0).1 = some e) := by
  induction entries generalizing v with
  | nil => exact ⟨0, le_refl _, by simp [formatLoop], by simp, by simp [formatLoop]⟩
  | cons kf rest ih =>
    obtain ⟨key, f⟩ := kf
    rcases hf : f.Format tag v with ⟨_ | err, v1⟩
    · obtain ⟨k, hk, htr, hnone, hsome⟩ := ih v1
      refine ⟨k + 1, by simpa using hk, ?_, ?_, ?_⟩
      · simp [formatLoop, hf, htr]
      · intro h
        simp only [formatLoop, hf] at h
        simpa using hnone h
      · intro e h
        simp only [formatLoop, hf] at h
        obtain ⟨hpos, kf, v0, hget, herr⟩ := hsome e h
        refine ⟨Nat.succ_pos k, kf, v0, ?_, herr⟩
        obtain ⟨k', rfl⟩ : ∃ k', k = k' + 1 := ⟨k - 1, by omega⟩
        simpa using hget
    · refine ⟨1, by simp, by simp [formatLoop, hf], by simp [formatLoop, hf], ?_⟩
      intro e h
      simp only [formatLoop, hf, Option.some.injEq] at h
      exact ⟨Nat.one_pos, (key, f), v, by simp, by simp [hf, h]⟩

/-- When every formatter of the range succeeds at its turn, the formatter loop calls them all,
returns no error and leaves the value they produce in turn. -/
theorem formatLoop_all_ok {V : Type} (i : Nat) (tag : String)
    (entries : List (String × Formatter V)) (v : V) (hok : formatsOk tag entries v = true) :
    formatLoop i tag entries v =
      (none, valueAfter tag entries v, entries.map (fun kf => Event.format i kf.1)) := by
  induction entries generalizing v with
  | nil => rfl
  | cons kf rest ih =>
    obtain ⟨key, f⟩ := kf
    simp only [formatsOk, Bool.and_eq_true] at hok
    rcases hf : f.Format tag v with ⟨_ | err, v1⟩
    · rw [hf] at hok
      simp only [formatLoop, hf, ih v1 hok.2, valueAfter, List.map_cons]
    · rw [hf] at hok
      simp at hok

/-- When the formatters before `(key, f)` in the range succeed at their turn and `f` then
fails, the formatter loop returns the error of `f` after calling the formatters up to `f`;
the formatters after `f` are not called. -/
theorem formatLoop_first_error {V : Type} (i : Nat) (tag : String)
    (pre : List (String × Formatter V)) (key : String) (f : Formatter V)
    (post : List (String × Formatter V)) (v : V) (err : Err) (v' : V)
    (hok : formatsOk tag pre v = true)
    (hfail : f.Format tag (valueAfter tag pre v) = (some err, v')) :
    formatLoop i tag (pre ++ (key, f) :: post) v =
      (some err, v', pre.map (fun kf => Event.format i kf.1) ++ [Event.format i key]) := by
  induction pre generalizing v with
  | nil =>
    simp only [valueAfter] at hfail
    simp [formatLoop, hfail]
  | cons kg rest ih =>
    obtain ⟨gkey, g⟩ := kg
    simp only [formatsOk, Bool.and_eq_true] at hok
    rcases hg : g.Format tag v with ⟨_ | gerr, v1⟩
    · rw [hg] at hok
      simp only [valueAfter, hg] at hfail
      have ih' := ih v1 hok.2 hfail
      have step : formatLoop i tag ((gkey, g) :: (rest ++ (key, f) :: post)) v =
          ((formatLoop i tag (rest ++ (key, f) :: post) v1).1,
           (formatLoop i tag (rest ++ (key, f) :: post) v1).2.1,
           Event.format i gkey :: (formatLoop i tag (rest ++ (key, f) :: post) v1).2.2) := by
        simp only [formatLoop, hg]
      rw [List.cons_append, step, ih']
      rfl
    · rw [hg] at hok
      simp at hok

/-- C18 as stated fails: with formatters registered under `a` and `b` and a field annotated
`a` only, `formatFieldValue` also calls the formatter registered under `b`, and on a run in
which the runtime ranges over the formatter map in the other order it calls `b` before `a`,
with another result. -/
theorem C18_all_registered_formatters_run :
    sampleEnv.Lookup "a" "a" = true ∧ sampleEnv.Lookup "a" "b" = false ∧
    twoFormatterRoamer.formatters.map Prod.fst = ["a", "b"] ∧
    formatFieldValue twoFormatterRoamer sampleEnv 0 (StructField.mk "F" "" "a") 5 =
      (none, 12, [Event.format 0 "a", Event.format 0 "b"]) ∧
    (reversedEnv.rangeFormatters 0 twoFormatterRoamer.formatters).Perm
      twoFormatterRoamer.formatters ∧
    formatFieldValue twoFormatterRoamer reversedEnv 0 (StructField.mk "F" "" "a") 5 =
      (none, 11, [Event.format 0 "b", Event.format 0 "a"]) := by
  refine ⟨rfl, rfl, rfl, by decide, List.reverse_perm _, by decide⟩

/-- C18, amended: `formatFieldValue` calls no formatter and returns no error when no
registered keyword is found in the annotation or no pointer to the field is obtainable;
otherwise it calls the registered formatters in the order in which the runtime ranges over
the formatter map, whether or not their own keyword is in the annotation: all of them when
it returns no error (every registered formatter once, the range being a permutation of the
registry), and up to the first one that fails, whose error it returns, otherwise. In
equations: if the formatters before `f` in the range succeed at their turn and `f` fails,
the result is the error of `f`, with the calls up to `f` and none after it; if all succeed
at their turn, the result is no error, the value they produce in turn, and one call each. -/
theorem C18_formatFieldValue {V R : Type} (r : Roamer V R) (env : Env V R) (i : Nat)
    (fieldType : StructField) (fieldValue : V) :
    (Formatters.has env r.formatters fieldType.Tag = true ↔
      ∃ kf ∈ r.formatters, env.Lookup fieldType.Tag kf.1 = true) ∧
    ((Formatters.has env r.formatters fieldType.Tag = false ∨ env.Pointer fieldValue = false) →
      formatFieldValue r env i fieldType fieldValue = (none, fieldValue, [])) ∧
    (Formatters.has env r.formatters fieldType.Tag = true → env.Pointer fieldValue = true →
      ∃ k, k ≤ (env.rangeFormatters i r.formatters).length ∧
        (formatFieldValue r env i fieldType fieldValue).2.2 =
          ((env.rangeFormatters i r.formatters).take k).map
            (fun kf => Event.format i kf.1) ∧
        ((formatFieldValue r env i fieldType fieldValue).1 = none →
          k = (env.rangeFormatters i r.formatters).length) ∧
        (∀ e, (formatFieldValue r env i fieldType fieldValue).1 = some e →
          0 < k ∧ ∃ kf v0, (env.rangeFormatters i r.formatters)[k - 1]? = some kf ∧
            (kf.2.Format fieldType.Tag v0).1 = some e)) ∧
    (Formatters.has env r.formatters fieldType.Tag = true → env.Pointer fieldValue = true →
      (env.rangeFormatters i r.formatters).Perm r.formatters →
      (formatFieldValue r env i fieldType fieldValue).1 = none →
      ((formatFieldValue r env i fieldType fieldValue).2.2).Perm
        (r.formatters.map (fun kf => Event.format i kf.1))) ∧
    (Formatters.has env r.formatters fieldType.Tag = true → env.Pointer fieldValue = true →
      ∀ (pre : List (String × Formatter V)) (key : String) (f : Formatter V)
        (post : List (String × Formatter V)) (err : Err) (v' : V),
      env.rangeFormatters i r.formatters = pre ++ (key, f) :: post →
      formatsOk fieldType.Tag pre fieldValue = true →
      f.Format fieldType.Tag (valueAfter fieldType.Tag pre fieldValue) = (some err, v') →
      formatFieldValue r env i fieldType fieldValue =
        (some err, v',
          pre.map (fun kf => Event.format i kf.1) ++ [Event.format i key])) ∧
    (Formatters.has env r.formatters fieldType.Tag = true → env.Pointer fieldValue = true →
      formatsOk fieldType.Tag (env.rangeFormatters i r.formatters) fieldValue = true →
      formatFieldValue r env i fieldType fieldValue =
        (none, valueAfter fieldType.Tag (env.rangeFormatters i r.formatters) fieldValue,
          (env.rangeFormatters i r.formatters).map (fun kf => Event.format i kf.1))) := by
  refine ⟨?_, ?_, ?_, ?_, ?_, ?_⟩
  · simp [Formatters.has]
  · intro h
    rcases h with h | h
    · simp [formatFieldValue, h]
    · simp [formatFieldValue, h]
  · intro hhas hptr
    have heq : formatFieldValue r env i fieldType fieldValue =
        formatLoop i fieldType.Tag (env.rangeFormatters i r.formatters) fieldValue := by
      simp [formatFieldValue, hhas, hptr]
    rw [heq]
    exact formatLoop_calls i fieldType.Tag _ fieldValue
  · intro hhas hptr hperm hnone
    have heq : formatFieldValue r env i fieldType fieldValue =
        formatLoop i fieldType.Tag (env.rangeFormatters i r.formatters) fieldValue := by
      simp [formatFieldValue, hhas, hptr]
    rw [heq] at hnone ⊢
    obtain ⟨k, -, htr, hall, -⟩ :=
      formatLoop_calls i fieldType.Tag (env.rangeFormatters i r.formatters) fieldValue
    rw [htr, hall hnone, List.take_length]
    exact hperm.map _
  · intro hhas hptr pre key f post err v' hrange hok hfail
    have heq : formatFieldValue r env i fieldType fieldValue =
        formatLoop i fieldType.Tag (env.rangeFormatters i r.formatters) fieldValue := by
      simp [formatFieldValue, hhas, hptr]
    rw [heq, hrange]
    exact formatLoop_first_error i fieldType.Tag pre key f post fieldValue err v' hok hfail
  · intro hhas hptr hok
    have heq : formatFieldValue r env i fieldType fieldValue =
        formatLoop i fieldType.Tag (env.rangeFormatters i r.formatters) fieldValue := by
      simp [formatFieldValue, hhas, hptr]
    rw [heq]
    exact formatLoop_all_ok i fieldType.Tag _ fieldValue hok

/-- Witness of C18: three formatters are registered, under `q`, `bad` and `z`, and the field
is annotated `bad`. The first formatter adds one, the second fails, and `formatFieldValue`
returns that error after these two calls; the third formatter is not called. -/
theorem C18_formatFieldValue_witness :
    Formatters.has sampleEnv strictFormatRoamer.formatters "bad" = true ∧
    sampleEnv.Pointer 42 = true ∧
    strictFormatRoamer.formatters.map Prod.fst = ["q", "bad", "z"] ∧
    formatFieldValue strictFormatRoamer sampleEnv 1 (StructField.mk "B" "" "bad") 42 =
      (some (Err.external "bad format"), 43, [Event.format 1 "q", Event.format 1 "bad"]) :=
  ⟨rfl, rfl, rfl,
    (C18_formatFieldValue strictFormatRoamer sampleEnv 1 (StructField.mk "B" "" "bad")
      42).2.2.2.2.1 rfl rfl [("q", sampleFormatter)] "bad" strictFormatter
      [("z", doubleFormatter)] (Err.external "bad format") 43 rfl rfl rfl⟩

/-! ## The parser loop and the formatters of the field walk: the claims -/

/-- C12, at the failing input: a roamer with a formatter registered under `query` and no
parser, and a struct whose exported field `ID`, annotated `query`, holds 7. `Parse` returns
no error, calls no formatter and leaves 7 in the field; with a parser registered as well (the
sample roamer) the same call formats the field to 8. -/
theorem C12_formatters_skipped_without_parsers :
    formatterOnlyRoamer.hasFormatters = true ∧ formatterOnlyRoamer.hasParsers = false ∧
    Formatters.has sampleEnv formatterOnlyRoamer.formatters "query" = true ∧
    Parse formatterOnlyRoamer sampleEnv { sampleRequest with Method := "GET" }
        (Any.val (plainType Kind.Pointer Kind.Struct)
          (some (Pointee.struct [Slot.mk (StructField.mk "ID" "" "query") 7]))) =
      { ret := Ret.returned none,
        mem := some (Pointee.struct [Slot.mk (StructField.mk "ID" "" "query") 7]),
        trace := [] } ∧
    Parse sampleRoamer sampleEnv { sampleRequest with Method := "GET" }
        (Any.val (plainType Kind.Pointer Kind.Struct)
          (some (Pointee.struct [Slot.mk (StructField.mk "ID" "" "query") 7]))) =
      { ret := Ret.returned none,
        mem := some (Pointee.struct [Slot.mk (StructField.mk "ID" "" "query") 8]),
        trace := [Event.format 0 "query"] } := by
  refine ⟨rfl, rfl, by decide, by decide, by decide⟩

/-- In two lists with the same elements, among which at most one satisfies `p`, the first
element that satisfies `p` is the same. -/
theorem find_eq_of_perm {α : Type} (p : α → Bool) (l l' : List α) (hperm : l'.Perm l)
    (huniq : ∀ a ∈ l, ∀ b ∈ l, p a = true → p b = true → a = b) :
    l'.find? p = l.find? p := by
  cases hl : l.find? p with
  | none =>
    rw [List.find?_eq_none] at hl ⊢
    intro x hx
    exact hl x (hperm.mem_iff.mp hx)
  | some a =>
    have ha : p a = true := List.find?_some hl
    have hal : a ∈ l := List.mem_of_find?_eq_some hl
    cases hl' : l'.find? p with
    | none =>
      rw [List.find?_eq_none] at hl'
      exact absurd ha (hl' a (hperm.mem_iff.mpr hal))
    | some b =>
      have hb : p b = true := List.find?_some hl'
      have hbl : b ∈ l := hperm.mem_iff.mp (List.mem_of_find?_eq_some hl')
      rw [huniq b hbl a hal hb ha]

/-- With parsers whose report does not depend on the cache, the error and the value that the
parser loop gives are those of the first entry of the range that reports a value. -/
theorem parseLoop_pure {V R : Type} (env : Env V R) (req : Request) (typeName : String)
    (i : Nat) (ft : StructField) (entries : List (String × Parser R)) (v : V) (cache : Cache R)
    (hpure : ∀ q ∈ entries, ∀ c c', (q.2.Parse req ft.Tag c).1 = (q.2.Parse req ft.Tag c').1 ∧
      (q.2.Parse req ft.Tag c).2.1 = (q.2.Parse req ft.Tag c').2.1) :
    ((parseLoop env req typeName i ft entries v cache).1,
      (parseLoop env req typeName i ft entries v cache).2.1) =
      match entries.find? (reportsValue req ft.Tag) with
      | none => (none, v)
      | some q =>
        ((env.Set v (q.2.Parse req ft.Tag []).1).1.map (fun err =>
            Err.Wrapf err "set `%s` value to field `%s` from tag `%s` for struct `%T`"
              [env.Sprint (q.2.Parse req ft.Tag []).1, ft.Name, q.1, typeName]),
          (env.Set v (q.2.Parse req ft.Tag []).1).2) := by
  induction entries generalizing cache with
  | nil => rfl
  | cons q rest ih =>
    obtain ⟨tag, p⟩ := q
    have hq := hpure (tag, p) (List.mem_cons_self _ _) cache []
    have ih' := fun c => ih c (fun q hmem => hpure q (List.mem_cons_of_mem _ hmem))
    rcases hp : p.Parse req ft.Tag cache with ⟨raw, found, c1⟩
    rw [hp] at hq
    simp only at hq
    cases found with
    | false =>
      have hrep : reportsValue req ft.Tag (tag, p) = false := by
        simp [reportsValue, ← hq.2]
      have hstep : parseLoop env req typeName i ft ((tag, p) :: rest) v cache =
          ((parseLoop env req typeName i ft rest v c1).1,
           (parseLoop env req typeName i ft rest v c1).2.1,
           (parseLoop env req typeName i ft rest v c1).2.2.1,
           Event.parse i tag :: (parseLoop env req typeName i ft rest v c1).2.2.2) := by
        simp only [parseLoop, hp]
      rw [hstep, List.find?_cons, hrep]
      exact ih' c1
    | true =>
      have hrep : reportsValue req ft.Tag (tag, p) = true := by
        simp [reportsValue, ← hq.2]
      rw [List.find?_cons, hrep]
      simp only [← hq.1]
      rcases hs : env.Set v raw with ⟨_ | err, v1⟩ <;> simp [parseLoop, hp, hs]

/-- The error and the value of the parser loop do not depend on the order of the range nor
on the cache, when the report of a parser does not depend on the cache and at most one
registered parser reports a value for the tag. -/
theorem parseLoop_order {V R : Type} (r : Roamer V R) (env : Env V R) (req : Request)
    (typeName : String) (i : Nat) (ft : StructField) (v : V)
    (rangeA rangeB : List (String × Parser R)) (cacheA cacheB : Cache R)
    (hA : rangeA.Perm r.parsers) (hB : rangeB.Perm r.parsers)
    (hpure : ∀ q ∈ r.parsers, ∀ (tag : String) (c c' : Cache R),
      (q.2.Parse req tag c).1 = (q.2.Parse req tag c').1 ∧
      (q.2.Parse req tag c).2.1 = (q.2.Parse req tag c').2.1)
    (huniq : ∀ (tag : String), ∀ q1 ∈ r.parsers, ∀ q2 ∈ r.parsers,
      reportsValue req tag q1 = true → reportsValue req tag q2 = true → q1 = q2) :
    (parseLoop env req typeName i ft rangeA v cacheA).1 =
      (parseLoop env req typeName i ft rangeB v cacheB).1 ∧
    (parseLoop env req typeName i ft rangeA v cacheA).2.1 =
      (parseLoop env req typeName i ft rangeB v cacheB).2.1 := by
  have h1 := parseLoop_pure env req typeName i ft rangeA v cacheA
    (fun q hq c c' => hpure q (hA.mem_iff.mp hq) ft.Tag c c')
  have h2 := parseLoop_pure env req typeName i ft rangeB v cacheB
    (fun q hq c c' => hpure q (hB.mem_iff.mp hq) ft.Tag c c')
  have hfind : rangeA.find? (reportsValue req ft.Tag) =
      rangeB.find? (reportsValue req ft.Tag) := by
    rw [find_eq_of_perm _ _ _ hA (huniq ft.Tag), find_eq_of_perm _ _ _ hB (huniq ft.Tag)]
  rw [hfind, ← h2] at h1
  exact Prod.mk.inj h1

/-- Every element of a list of two elements is one of the two. -/
theorem forall_mem_pair {α : Type} (P : α → Prop) (a b : α) (ha : P a) (hb : P b) :
    ∀ q ∈ [a, b], P q := by
  intro q hq
  rcases List.mem_cons.mp hq with rfl | hq
  · exact ha
  · rw [List.mem_singleton.mp hq]
    exact hb

/-- The formatter loop over two ranges in a row: the error and the value are those of the
first range if it fails, and otherwise those of the second range run on the value that the
first one leaves. -/
theorem formatLoop_append {V : Type} (i : Nat) (tag : String)
    (l1 l2 : List (String × Formatter V)) (v : V) :
    (formatLoop i tag (l1 ++ l2) v).1 =
      (match (formatLoop i tag l1 v).1 with
        | some e => some e
        | none => (formatLoop i tag l2 (formatLoop i tag l1 v).2.1).1) ∧
    (formatLoop i tag (l1 ++ l2) v).2.1 =
      (match (formatLoop i tag l1 v).1 with
        | some _ => (formatLoop i tag l1 v).2.1
        | none => (formatLoop i tag l2 (formatLoop i tag l1 v).2.1).2.1) := by
  induction l1 generalizing v with
  | nil => exact ⟨rfl, rfl⟩
  | cons kf rest ih =>
    obtain ⟨key, f⟩ := kf
    rcases hf : f.Format tag v with ⟨_ | e, v'⟩
    · have hstep : ∀ l : List (String × Formatter V),
          formatLoop i tag ((key, f) :: l) v =
            ((formatLoop i tag l v').1, (formatLoop i tag l v').2.1,
              Event.format i key :: (formatLoop i tag l v').2.2) := by
        intro l
        simp only [formatLoop, hf]
      rw [List.cons_append, hstep, hstep]
      exact ih v'
    · have hstep : ∀ l : List (String × Formatter V),
          formatLoop i tag ((key, f) :: l) v = (some e, v', [Event.format i key]) := by
        intro l
        simp only [formatLoop, hf]
      rw [List.cons_append, hstep, hstep]
      exact ⟨rfl, rfl⟩

/-- The error and the value of the formatter loop do not depend on the order of the range,
when any two formatters of the range give the same error and the same value in either
order. -/
theorem formatLoop_perm {V : Type} (i : Nat) (tag : String)
    (l1 l2 : List (String × Formatter V)) (hperm : l1.Perm l2) :
    (∀ kf ∈ l1, ∀ kg ∈ l1, ∀ (v : V),
      (formatLoop i tag [kf, kg] v).1 = (formatLoop i tag [kg, kf] v).1 ∧
      (formatLoop i tag [kf, kg] v).2.1 = (formatLoop i tag [kg, kf] v).2.1) →
    ∀ (v : V), (formatLoop i tag l1 v).1 = (formatLoop i tag l2 v).1 ∧
      (formatLoop i tag l1 v).2.1 = (formatLoop i tag l2 v).2.1 := by
  induction hperm with
  | nil => exact fun _ _ => ⟨rfl, rfl⟩
  | @cons a la lb _ ih =>
    intro hc v
    have ih' := ih (fun kf hkf kg hkg =>
      hc kf (List.mem_cons_of_mem _ hkf) kg (List.mem_cons_of_mem _ hkg))
    have hA := formatLoop_append i tag [a] la v
    have hB := formatLoop_append i tag [a] lb v
    rw [List.singleton_append] at hA hB
    rw [hA.1, hA.2, hB.1, hB.2]
    cases (formatLoop i tag [a] v).1 with
    | none => exact ih' _
    | some e => exact ⟨rfl, rfl⟩
  | swap a b l =>
    intro hc v
    have h := hc b (List.mem_cons_self _ _) a
      (List.mem_cons_of_mem _ (List.mem_cons_self _ _)) v
    have hA := formatLoop_append i tag [b, a] l v
    have hB := formatLoop_append i tag [a, b] l v
    rw [show [b, a] ++ l = b :: a :: l from rfl] at hA
    rw [show [a, b] ++ l = a :: b :: l from rfl] at hB
    rw [hA.1, hA.2, hB.1, hB.2, h.1, h.2]
    exact ⟨rfl, rfl⟩
  | trans h12 _ ih1 ih2 =>
    intro hc v
    have h1 := ih1 hc v
    have h2 := ih2 (fun kf hkf kg hkg =>
      hc kf (h12.mem_iff.mpr hkf) kg (h12.mem_iff.mpr hkg)) v
    exact ⟨h1.1.trans h2.1, h1.2.trans h2.2⟩

/-- When any two registered formatters give the same error and the same value in either
order, the error and the value of `formatFieldValue` do not depend on the order in which the
runtime ranges over the formatter map. -/
theorem formatFieldValue_order {V R : Type} (r : Roamer V R) (env : Env V R)
    (rpA rpB : Nat → List (String × Parser R) → List (String × Parser R))
    (rfA rfB : Nat → List (String × Formatter V) → List (String × Formatter V))
    (hfA : ∀ i, (rfA i r.formatters).Perm r.formatters)
    (hfB : ∀ i, (rfB i r.formatters).Perm r.formatters)
    (hcomm : ∀ kf ∈ r.formatters, ∀ kg ∈ r.formatters, ∀ (i : Nat) (tag : String) (v : V),
      (formatLoop i tag [kf, kg] v).1 = (formatLoop i tag [kg, kf] v).1 ∧
      (formatLoop i tag [kf, kg] v).2.1 = (formatLoop i tag [kg, kf] v).2.1)
    (i : Nat) (ft : StructField) (v : V) :
    (formatFieldValue r (env.withOrder rpA rfA) i ft v).1 =
      (formatFieldValue r (env.withOrder rpB rfB) i ft v).1 ∧
    (formatFieldValue r (env.withOrder rpA rfA) i ft v).2.1 =
      (formatFieldValue r (env.withOrder rpB rfB) i ft v).2.1 := by
  have hloop := formatLoop_perm i ft.Tag (rfA i r.formatters) (rfB i r.formatters)
    ((hfA i).trans (hfB i).symm)
    (fun kf hkf kg hkg v => hcomm kf ((hfA i).mem_iff.mp hkf) kg ((hfA i).mem_iff.mp hkg)
      i ft.Tag v) v
  simp only [formatFieldValue, Formatters.has, Env.withOrder]
  by_cases hhas : (r.formatters.any fun kf => env.Lookup ft.Tag kf.1) = true
  · by_cases hptr : env.Pointer v = true
    · simp only [hhas, hptr, Bool.not_true, Bool.false_eq_true, if_false]
      exact hloop
    · simp [hhas, hptr]
  · simp [hhas]

/-- The parser loop does not look at the order functions of the environment. -/
theorem parseLoop_withOrder {V R : Type} (env : Env V R)
    (rp : Nat → List (String × Parser R) → List (String × Parser R))
    (rf : Nat → List (String × Formatter V) → List (String × Formatter V))
    (req : Request) (typeName : String) (i : Nat) (ft : StructField)
    (entries : List (String × Parser R)) (v : V) (cache : Cache R) :
    parseLoop (env.withOrder rp rf) req typeName i ft entries v cache =
      parseLoop env req typeName i ft entries v cache := by
  induction entries generalizing cache with
  | nil => rfl
  | cons q rest ih =>
    obtain ⟨tag, p⟩ := q
    rcases hp : p.Parse req ft.Tag cache with ⟨raw, _ | _, c1⟩
    · simp only [parseLoop, hp, ih]
    · simp only [parseLoop, hp, Env.withOrder]

/-- One iteration of the walk on two runs that differ in the order of the maps, from states
with the same fields: the fields afterwards and the way the iteration ends are the same. -/
theorem walkField_order {V R : Type} (r : Roamer V R) (env : Env V R)
    (rpA rpB : Nat → List (String × Parser R) → List (String × Parser R))
    (rfA rfB : Nat → List (String × Formatter V) → List (String × Formatter V))
    (req : Request) (typeName : String)
    (hpA : ∀ i, (rpA i r.parsers).Perm r.parsers)
    (hpB : ∀ i, (rpB i r.parsers).Perm r.parsers)
    (hfA : ∀ i, (rfA i r.formatters).Perm r.formatters)
    (hfB : ∀ i, (rfB i r.formatters).Perm r.formatters)
    (hpure : ∀ q ∈ r.parsers, ∀ (tag : String) (c c' : Cache R),
      (q.2.Parse req tag c).1 = (q.2.Parse req tag c').1 ∧
      (q.2.Parse req tag c).2.1 = (q.2.Parse req tag c').2.1)
    (huniq : ∀ (tag : String), ∀ q1 ∈ r.parsers, ∀ q2 ∈ r.parsers,
      reportsValue req tag q1 = true → reportsValue req tag q2 = true → q1 = q2)
    (hcomm : ∀ kf ∈ r.formatters, ∀ kg ∈ r.formatters, ∀ (i : Nat) (tag : String) (v : V),
      (formatLoop i tag [kf, kg] v).1 = (formatLoop i tag [kg, kf] v).1 ∧
      (formatLoop i tag [kf, kg] v).2.1 = (formatLoop i tag [kg, kf] v).2.1)
    (i : Nat) (sA sB : WalkState V R) (hfields : sA.fields = sB.fields) :
    (walkField r (env.withOrder rpA rfA) req typeName i sA).state.fields =
      (walkField r (env.withOrder rpB rfB) req typeName i sB).state.fields ∧
    (walkField r (env.withOrder rpA rfA) req typeName i sA).ret =
      (walkField r (env.withOrder rpB rfB) req typeName i sB).ret := by
  obtain ⟨fields, cacheA, traceA⟩ := sA
  obtain ⟨fieldsB, cacheB, traceB⟩ := sB
  simp only at hfields
  subst hfields
  have hfta : fieldTypeAt r (env.withOrder rpA rfA) fields i =
      fieldTypeAt r (env.withOrder rpB rfB) fields i := rfl
  have hfv := formatFieldValue_order r env rpA rpB rfA rfB hfA hfB hcomm i
  unfold walkField
  simp only [hfta, parseLoop_withOrder]
  cases hft : fieldTypeAt r (env.withOrder rpB rfB) fields i with
  | none =>
    by_cases hfast : r.experimentalFastStructField = true <;> simp [hfast, Step.state, Step.ret]
  | some ft =>
    by_cases hexp : (!ft.IsExported || ft.Tag.length == 0) = true
    · simp [hexp, Step.state, Step.ret]
    · cases hslot : fields[i]? with
      | none => simp [hexp, Step.state, Step.ret]
      | some slot =>
        have hz : (env.withOrder rpA rfA).IsZero slot.value =
            (env.withOrder rpB rfB).IsZero slot.value := rfl
        by_cases hskip : (r.skipFilled && !(env.withOrder rpB rfB).IsZero slot.value) = true
        · by_cases hf : r.hasFormatters = true
          · have hv := hfv ft slot.value
            rcases hvA : formatFieldValue r (env.withOrder rpA rfA) i ft slot.value with
              ⟨eA, vA, dA⟩
            rcases hvB : formatFieldValue r (env.withOrder rpB rfB) i ft slot.value with
              ⟨eB, vB, dB⟩
            rw [hvA, hvB] at hv
            simp only at hv
            obtain ⟨rfl, rfl⟩ := hv
            cases eA <;> simp [hexp, hz, hskip, hf, hvA, hvB, Step.state, Step.ret]
          · simp [hexp, hz, hskip, hf, Step.state, Step.ret]
        · have hloop := parseLoop_order r env req typeName i ft slot.value
            (rpA i r.parsers) (rpB i r.parsers) cacheA cacheB (hpA i) (hpB i) hpure huniq
          have hrA : (env.withOrder rpA rfA).rangeParsers i r.parsers = rpA i r.parsers := rfl
          have hrB : (env.withOrder rpB rfB).rangeParsers i r.parsers = rpB i r.parsers := rfl
          rcases hlA : parseLoop env req typeName i ft (rpA i r.parsers) slot.value cacheA with
            ⟨eA, vA, cA, dA⟩
          rcases hlB : parseLoop env req typeName i ft (rpB i r.parsers) slot.value cacheB with
            ⟨eB, vB, cB, dB⟩
          rw [hlA, hlB] at hloop
          simp only at hloop
          obtain ⟨rfl, rfl⟩ := hloop
          cases eA with
          | some e => simp [hexp, hz, hskip, hrA, hrB, hlA, hlB, Step.state, Step.ret]
          | none =>
            by_cases hf : r.hasFormatters = true
            · have hv := hfv ft vA
              rcases hvA : formatFieldValue r (env.withOrder rpA rfA) i ft vA with
                ⟨fA, wA, dA'⟩
              rcases hvB : formatFieldValue r (env.withOrder rpB rfB) i ft vA with
                ⟨fB, wB, dB'⟩
              rw [hvA, hvB] at hv
              simp only at hv
              obtain ⟨rfl, rfl⟩ := hv
              cases fA <;>
                simp [hexp, hz, hskip, hrA, hrB, hlA, hlB, hf, hvA, hvB, Step.state, Step.ret]
            · simp [hexp, hz, hskip, hrA, hrB, hlA, hlB, hf, Step.state, Step.ret]

/-- The field walk on two runs that differ in the order of the maps, from states with the
same fields: it ends in the same way with the same fields. -/
theorem walkFields_order {V R : Type} (r : Roamer V R) (env : Env V R)
    (rpA rpB : Nat → List (String × Parser R) → List (String × Parser R))
    (rfA rfB : Nat → List (String × Formatter V) → List (String × Formatter V))
    (req : Request) (typeName : String)
    (hpA : ∀ i, (rpA i r.parsers).Perm r.parsers)
    (hpB : ∀ i, (rpB i r.parsers).Perm r.parsers)
    (hfA : ∀ i, (rfA i r.formatters).Perm r.formatters)
    (hfB : ∀ i, (rfB i r.formatters).Perm r.formatters)
    (hpure : ∀ q ∈ r.parsers, ∀ (tag : String) (c c' : Cache R),
      (q.2.Parse req tag c).1 = (q.2.Parse req tag c').1 ∧
      (q.2.Parse req tag c).2.1 = (q.2.Parse req tag c').2.1)
    (huniq : ∀ (tag : String), ∀ q1 ∈ r.parsers, ∀ q2 ∈ r.parsers,
      reportsValue req tag q1 = true → reportsValue req tag q2 = true → q1 = q2)
    (hcomm : ∀ kf ∈ r.formatters, ∀ kg ∈ r.formatters, ∀ (i : Nat) (tag : String) (v : V),
      (formatLoop i tag [kf, kg] v).1 = (formatLoop i tag [kg, kf] v).1 ∧
      (formatLoop i tag [kf, kg] v).2.1 = (formatLoop i tag [kg, kf] v).2.1)
    (n j : Nat) (sA sB : WalkState V R) (hfields : sA.fields = sB.fields) :
    (walkFields r (env.withOrder rpA rfA) req typeName n j sA).1 =
      (walkFields r (env.withOrder rpB rfB) req typeName n j sB).1 ∧
    (walkFields r (env.withOrder rpA rfA) req typeName n j sA).2.fields =
      (walkFields r (env.withOrder rpB rfB) req typeName n j sB).2.fields := by
  induction n generalizing j sA sB with
  | zero => exact ⟨rfl, hfields⟩
  | succ n ih =>
    obtain ⟨hst, hrt⟩ := walkField_order r env rpA rpB rfA rfB req typeName hpA hpB hfA hfB
      hpure huniq hcomm j sA sB hfields
    cases hwA : walkField r (env.withOrder rpA rfA) req typeName j sA with
    | stop retA sA1 =>
      cases hwB : walkField r (env.withOrder rpB rfB) req typeName j sB with
      | stop retB sB1 =>
        simp only [hwA, hwB, Step.state, Step.ret, Option.some.injEq] at hst hrt
        simp only [walkFields, hwA, hwB]
        exact ⟨hrt, hst⟩
      | next sB1 => simp [hwA, hwB, Step.ret] at hrt
    | next sA1 =>
      cases hwB : walkField r (env.withOrder rpB rfB) req typeName j sB with
      | stop retB sB1 => simp [hwA, hwB, Step.ret] at hrt
      | next sB1 =>
        simp only [hwA, hwB, Step.state] at hst
        simp only [walkFields, hwA, hwB]
        exact ih (j + 1) sA1 sB1 hst

/-- The method `parseStruct` on two runs that differ in the order of the maps: the same
returned error and the same destination. -/
theorem parseStruct_order {V R : Type} (r : Roamer V R) (env : Env V R)
    (rpA rpB : Nat → List (String × Parser R) → List (String × Parser R))
    (rfA rfB : Nat → List (String × Formatter V) → List (String × Formatter V))
    (req : Request) (typeName : String) (mem : Mem V)
    (hpA : ∀ i, (rpA i r.parsers).Perm r.parsers)
    (hpB : ∀ i, (rpB i r.parsers).Perm r.parsers)
    (hfA : ∀ i, (rfA i r.formatters).Perm r.formatters)
    (hfB : ∀ i, (rfB i r.formatters).Perm r.formatters)
    (hpure : ∀ q ∈ r.parsers, ∀ (tag : String) (c c' : Cache R),
      (q.2.Parse req tag c).1 = (q.2.Parse req tag c').1 ∧
      (q.2.Parse req tag c).2.1 = (q.2.Parse req tag c').2.1)
    (huniq : ∀ (tag : String), ∀ q1 ∈ r.parsers, ∀ q2 ∈ r.parsers,
      reportsValue req tag q1 = true → reportsValue req tag q2 = true → q1 = q2)
    (hcomm : ∀ kf ∈ r.formatters, ∀ kg ∈ r.formatters, ∀ (i : Nat) (tag : String) (v : V),
      (formatLoop i tag [kf, kg] v).1 = (formatLoop i tag [kg, kf] v).1 ∧
      (formatLoop i tag [kf, kg] v).2.1 = (formatLoop i tag [kg, kf] v).2.1) :
    (parseStruct r (env.withOrder rpA rfA) req typeName mem).ret =
      (parseStruct r (env.withOrder rpB rfB) req typeName mem).ret ∧
    (parseStruct r (env.withOrder rpA rfA) req typeName mem).mem =
      (parseStruct r (env.withOrder rpB rfB) req typeName mem).mem := by
  unfold parseStruct
  cases hret : (parseBody r req typeName mem).ret with
  | panicked => simp [hret]
  | returned err =>
    cases err with
    | some err => simp [hret]
    | none =>
      by_cases hp : r.hasParsers = true
      · cases hm : (parseBody r req typeName mem).mem with
        | none => simp [hret, hp, hm]
        | some pointee =>
          cases pointee with
          | value v => simp [hret, hp, hm]
          | struct fields =>
            obtain ⟨h1, h2⟩ := walkFields_order r env rpA rpB rfA rfB req typeName hpA hpB
              hfA hfB hpure huniq hcomm fields.length 0
              { fields := fields, cache := [], trace := [] }
              { fields := fields, cache := [], trace := [] } rfl
            simp only [hret, hp, hm, Bool.not_true, Bool.false_eq_true, if_false]
            exact ⟨h1, by rw [h2]⟩
      · simp [hret, hp]

/-- C16 as stated fails, in three ways. The two environments differ only in the order in
which the runtime ranges over the maps, both orders being permutations of the entries, and
the destination is the same fresh zero-valued struct in both calls of `Parse`.
(1) Two parsers report a value for the same field, 1 and 2 (their reports do not depend on
the cache and no formatter is registered): one call leaves 1 in the field, the other 2.
(2) Two registered formatters do not commute, one adds one and the other doubles (a single
parser is registered): one call leaves 86 in the field, the other 85.
(3) The report of a parser depends on what another parser left in the cache (no parser
reports a value when asked with an empty cache and no formatter is registered): one call
leaves 7 in the field, the other leaves it at zero. -/
theorem C16_two_calls_can_differ :
    reversedEnv = sampleEnv.withOrder (fun _ entries => entries.reverse)
      (fun _ entries => entries.reverse) ∧
    (∀ (entries : List (String × Parser Nat)),
      (sampleEnv.rangeParsers 0 entries).Perm entries ∧
      (reversedEnv.rangeParsers 0 entries).Perm entries) ∧
    (∀ (entries : List (String × Formatter Nat)),
      (sampleEnv.rangeFormatters 0 entries).Perm entries ∧
      (reversedEnv.rangeFormatters 0 entries).Perm entries) ∧
    ((∀ q ∈ twoParserRoamer.parsers, reportsValue sampleRequest "query" q = true) ∧
      (∀ q ∈ twoParserRoamer.parsers, ∀ (tag : String) (c c' : Cache Nat),
        (q.2.Parse sampleRequest tag c).1 = (q.2.Parse sampleRequest tag c').1 ∧
        (q.2.Parse sampleRequest tag c).2.1 = (q.2.Parse sampleRequest tag c').2.1) ∧
      twoParserRoamer.formatters.length = 0 ∧
      (Parse twoParserRoamer sampleEnv sampleRequest
          (Any.val (plainType Kind.Pointer Kind.Struct)
            (some (Pointee.struct [Slot.mk (StructField.mk "ID" "" "query") 0])))).mem =
        some (Pointee.struct [Slot.mk (StructField.mk "ID" "" "query") 1]) ∧
      (Parse twoParserRoamer reversedEnv sampleRequest
          (Any.val (plainType Kind.Pointer Kind.Struct)
            (some (Pointee.struct [Slot.mk (StructField.mk "ID" "" "query") 0])))).mem =
        some (Pointee.struct [Slot.mk (StructField.mk "ID" "" "query") 2])) ∧
    (twoFormatterRoamer.parsers.length = 1 ∧
      (∀ q ∈ twoFormatterRoamer.parsers, ∀ (tag : String) (c c' : Cache Nat),
        (q.2.Parse sampleRequest tag c).1 = (q.2.Parse sampleRequest tag c').1 ∧
        (q.2.Parse sampleRequest tag c).2.1 = (q.2.Parse sampleRequest tag c').2.1) ∧
      (formatLoop 0 "a" [("a", sampleFormatter), ("b", doubleFormatter)] 42).2.1 = 86 ∧
      (formatLoop 0 "a" [("b", doubleFormatter), ("a", sampleFormatter)] 42).2.1 = 85 ∧
      (Parse twoFormatterRoamer sampleEnv sampleRequest
          (Any.val (plainType Kind.Pointer Kind.Struct)
            (some (Pointee.struct [Slot.mk (StructField.mk "ID" "" "a") 0])))).mem =
        some (Pointee.struct [Slot.mk (StructField.mk "ID" "" "a") 86]) ∧
      (Parse twoFormatterRoamer reversedEnv sampleRequest
          (Any.val (plainType Kind.Pointer Kind.Struct)
            (some (Pointee.struct [Slot.mk (StructField.mk "ID" "" "a") 0])))).mem =
        some (Pointee.struct [Slot.mk (StructField.mk "ID" "" "a") 85])) ∧
    ((∀ (tag : String), ∀ q ∈ cacheRoamer.parsers, reportsValue sampleRequest tag q = false) ∧
      cacheRoamer.formatters.length = 0 ∧
      (cacheReader.Parse sampleRequest "query" []).2.1 = false ∧
      (cacheReader.Parse sampleRequest "query"
        (memoParser.Parse sampleRequest "query" []).2.2).2.1 = true ∧
      (Parse cacheRoamer sampleEnv sampleRequest
          (Any.val (plainType Kind.Pointer Kind.Struct)
            (some (Pointee.struct [Slot.mk (StructField.mk "ID" "" "query") 0])))).mem =
        some (Pointee.struct [Slot.mk (StructField.mk "ID" "" "query") 7]) ∧
      (Parse cacheRoamer reversedEnv sampleRequest
          (Any.val (plainType Kind.Pointer Kind.Struct)
            (some (Pointee.struct [Slot.mk (StructField.mk "ID" "" "query") 0])))).mem =
        some (Pointee.struct [Slot.mk (StructField.mk "ID" "" "query") 0])) := by
  refine ⟨rfl, fun _ => ⟨List.Perm.refl _, List.reverse_perm _⟩,
    fun _ => ⟨List.Perm.refl _, List.reverse_perm _⟩,
    ⟨by decide, ?_, rfl, by decide, by decide⟩,
    ⟨rfl, ?_, rfl, rfl, by decide, by decide⟩,
    ⟨?_, rfl, rfl, rfl, by decide, by decide⟩⟩
  · exact forall_mem_pair _ _ _ (fun _ _ _ => ⟨rfl, rfl⟩) (fun _ _ _ => ⟨rfl, rfl⟩)
  · intro q hq
    rw [List.mem_singleton.mp hq]
    exact fun _ _ _ => ⟨rfl, rfl⟩
  · intro tag
    exact forall_mem_pair _ _ _ rfl rfl

/-- C16, amended: let the report of every registered parser be independent of the cache, let
at most one registered parser report a value for any annotation, and let any two registered
formatters, run one after the other, give the same error and the same value in either order.
Then two calls of `Parse` with the same roamer, request and destination return the same error
and leave the same destination, whatever the orders in which the runtime ranges over the
parser map and the formatter map in the two calls. -/
theorem C16_map_order_independent {V R : Type} (r : Roamer V R) (env : Env V R)
    (rpA rpB : Nat → List (String × Parser R) → List (String × Parser R))
    (rfA rfB : Nat → List (String × Formatter V) → List (String × Formatter V))
    (req : Request) (ptr : Any V)
    (hpA : ∀ i, (rpA i r.parsers).Perm r.parsers)
    (hpB : ∀ i, (rpB i r.parsers).Perm r.parsers)
    (hfA : ∀ i, (rfA i r.formatters).Perm r.formatters)
    (hfB : ∀ i, (rfB i r.formatters).Perm r.formatters)
    (hpure : ∀ q ∈ r.parsers, ∀ (tag : String) (c c' : Cache R),
      (q.2.Parse req tag c).1 = (q.2.Parse req tag c').1 ∧
      (q.2.Parse req tag c).2.1 = (q.2.Parse req tag c').2.1)
    (huniq : ∀ (tag : String), ∀ q1 ∈ r.parsers, ∀ q2 ∈ r.parsers,
      reportsValue req tag q1 = true → reportsValue req tag q2 = true → q1 = q2)
    (hcomm : ∀ kf ∈ r.formatters, ∀ kg ∈ r.formatters, ∀ (i : Nat) (tag : String) (v : V),
      (formatLoop i tag [kf, kg] v).1 = (formatLoop i tag [kg, kf] v).1 ∧
      (formatLoop i tag [kf, kg] v).2.1 = (formatLoop i tag [kg, kf] v).2.1) :
    (Parse r (env.withOrder rpA rfA) req ptr).ret =
      (Parse r (env.withOrder rpB rfB) req ptr).ret ∧
    (Parse r (env.withOrder rpA rfA) req ptr).mem =
      (Parse r (env.withOrder rpB rfB) req ptr).mem := by
  cases ptr with
  | nil => exact ⟨rfl, rfl⟩
  | val t mem =>
    by_cases hk : t.kind = Kind.Pointer
    · obtain ⟨h1, h2⟩ := parseStruct_order r env rpA rpB rfA rfB req t.name mem hpA hpB hfA hfB
        hpure huniq hcomm
      have hcall : ∀ res1 res2 : Result V, res1.mem = res2.mem →
          (callAfterParse t req res1).ret = (callAfterParse t req res2).ret ∧
          (callAfterParse t req res1).mem = (callAfterParse t req res2).mem := by
        intro res1 res2 hmem
        unfold callAfterParse
        cases t.AfterParse with
        | none => exact ⟨rfl, hmem⟩
        | some hook => simp [hmem]
      by_cases hs : t.elem = Kind.Struct
      · simp only [Parse, hk, hs, bne_self_eq_false, Bool.false_eq_true, if_false]
        by_cases hret : (parseStruct r (env.withOrder rpB rfB) req t.name mem).ret =
            Ret.returned none
        · have hretA := h1.trans hret
          simp only [hretA, hret, bne_self_eq_false, Bool.false_eq_true, if_false]
          exact hcall _ _ h2
        · have hretA : (parseStruct r (env.withOrder rpA rfA) req t.name mem).ret ≠
              Ret.returned none := fun h => hret (h1.symm.trans h)
          simp only [bne_iff_ne, ne_eq, hretA, hret, not_false_eq_true, if_true]
          exact ⟨h1, h2⟩
      · cases hel : t.elem <;> first | exact absurd hel hs | simp [Parse, hk, hel]
    · simp [Parse, hk]

/-- Witness of C16: a roamer with two parsers, of which one reports for the annotation `a`
and the other for `b`, and two formatters that commute, on a struct with a field of each
annotation. One call ranges over the maps in the order of their entries, the other in the
reverse order, which is a different order; both leave 13 and 23 in the fields. -/
theorem C16_map_order_independent_witness :
    commutingRoamer.parsers.reverse.map Prod.fst ≠ commutingRoamer.parsers.map Prod.fst ∧
    commutingRoamer.formatters.reverse.map Prod.fst ≠
      commutingRoamer.formatters.map Prod.fst ∧
    (Parse commutingRoamer
        (sampleEnv.withOrder (fun _ entries => entries) (fun _ entries => entries))
        { sampleRequest with Method := "GET" }
        (Any.val (sampleType Kind.Pointer Kind.Struct) (some (Pointee.struct twoTagged)))).mem =
      some (Pointee.struct
        [Slot.mk (StructField.mk "A" "" "a") 13, Slot.mk (StructField.mk "B" "" "b") 23]) ∧
    (Parse commutingRoamer
        (sampleEnv.withOrder (fun _ entries => entries) (fun _ entries => entries))
        { sampleRequest with Method := "GET" }
        (Any.val (sampleType Kind.Pointer Kind.Struct) (some (Pointee.struct twoTagged)))).mem =
      (Parse commutingRoamer
        (sampleEnv.withOrder (fun _ entries => entries.reverse)
          (fun _ entries => entries.reverse))
        { sampleRequest with Method := "GET" }
        (Any.val (sampleType Kind.Pointer Kind.Struct)
          (some (Pointee.struct twoTagged)))).mem :=
  ⟨by decide, by decide, by decide,
    (C16_map_order_independent commutingRoamer sampleEnv
      (fun _ entries => entries) (fun _ entries => entries.reverse)
      (fun _ entries => entries) (fun _ entries => entries.reverse)
      { sampleRequest with Method := "GET" }
      (Any.val (sampleType Kind.Pointer Kind.Struct) (some (Pointee.struct twoTagged)))
      (fun _ => List.Perm.refl _) (fun _ => List.reverse_perm _)
      (fun _ => List.Perm.refl _) (fun _ => List.reverse_perm _)
      (forall_mem_pair _ _ _ (fun _ _ _ => ⟨rfl, rfl⟩) (fun _ _ _ => ⟨rfl, rfl⟩))
      (fun tag => forall_mem_pair _ _ _
        (forall_mem_pair _ _ _ (fun _ _ => rfl)
          (fun h1 h2 => absurd ((beq_iff_eq.mp h1).symm.trans (beq_iff_eq.mp h2))
            (by decide)))
        (forall_mem_pair _ _ _
          (fun h1 h2 => absurd ((beq_iff_eq.mp h1).symm.trans (beq_iff_eq.mp h2))
            (by decide))
          (fun _ _ => rfl)))
      (forall_mem_pair _ _ _
        (forall_mem_pair _ _ _ (fun _ _ _ => ⟨rfl, rfl⟩)
          (fun i tag v => by simp [formatLoop, sampleFormatter, addTwoFormatter]))
        (forall_mem_pair _ _ _
          (fun i tag v => by simp [formatLoop, sampleFormatter, addTwoFormatter])
          (fun _ _ _ => ⟨rfl, rfl⟩)))).2⟩

end Waddler
